import Mathlib

/-!
Verification model of the `llm-analysis-quiz` repository (src/app.py,
src/solver.py, src/utils.py).

The Python code is shallowly embedded: pure helpers become Lean functions on
`List Char` / `List Nat` (bytes), and the effectful solver run becomes a
function of an explicit environment (`Env`) describing the outcome of every
browser / network / library call site, returning the run result together with
a trace of outward effects.  Numbers (Python ints/floats) are modelled as `ℚ`;
all concrete values appearing in the claims are small integers, on which float
arithmetic is exact.
-/

namespace Quiz

/-- Characters of a string literal (all inputs in this development are ASCII). -/
def chars (s : String) : List Char := s.data

/-- UTF-8 bytes of an ASCII string literal. -/
def asciiBytes (s : String) : List Nat := s.data.map Char.toNat

/-- ASCII lower-casing of one character, modelling Python `str.lower()` on the
ASCII inputs used by the solver. -/
def lowerChar (c : Char) : Char :=
  if 'A' ≤ c ∧ c ≤ 'Z' then Char.ofNat (c.toNat + 32) else c

/-- `s.lower()` on ASCII text. -/
def lowerStr (s : List Char) : List Char := s.map lowerChar

/-- Python `str.strip()` restricted to ASCII whitespace. -/
def isSpace (c : Char) : Bool :=
  c = ' ' ∨ c = '\t' ∨ c = '\n' ∨ c = '\r' ∨ c = Char.ofNat 11 ∨ c = Char.ofNat 12

def stripStr (s : List Char) : List Char :=
  ((s.dropWhile isSpace).reverse.dropWhile isSpace).reverse

/-- `url.lower().endswith(suffix)`. -/
def lowerEndsWith (s : List Char) (suffix : String) : Bool :=
  (chars suffix).isSuffixOf (lowerStr s)

/-- Python `needle in haystack` on strings. -/
def containsSub (haystack needle : List Char) : Bool :=
  (List.range (haystack.length + 1)).any fun i => needle.isPrefixOf (haystack.drop i)

def isDigit (c : Char) : Bool := '0' ≤ c ∧ c ≤ '9'

def digitVal (c : Char) : Nat := c.toNat - '0'.toNat

/-- Natural number denoted by a digit string (most significant first). -/
def digitsToNat (ds : List Char) : Nat :=
  ds.foldl (fun acc c => acc * 10 + digitVal c) 0

/-- `10 ^ n` as a rational, computed over `ℕ` (kernel-friendly). -/
def pow10 (n : Nat) : ℚ := ((10 ^ n : Nat) : ℚ)

/-- `10 ^ e` for an integer exponent. -/
def pow10Int (e : Int) : ℚ :=
  if 0 ≤ e then pow10 e.toNat else 1 / pow10 (-e).toNat

/-- Rational denoted by integer digits `ip` and fractional digits `fp`. -/
def decimalToRat (ip fp : List Char) : ℚ :=
  (digitsToNat ip : ℚ) + (digitsToNat fp : ℚ) / pow10 fp.length

/-!
## Model of `re.findall(r'[-+]?[0-9]*\.?[0-9]+', text)`

Used by `compute_answer_from_page_content` (body-text fallback) and by
`sum_pdf_value_like_from_bytes` (page free text).  The pattern, with greedy
matching and backtracking, matches at a given start position:
  * an optional sign,
  * then either `d₁` (a nonempty digit run), optionally followed by `.d₂`
    when a dot with at least one further digit follows,
  * or `.d₂` when there is no leading digit run.
`re.findall` collects non-overlapping leftmost matches.
-/

/-- Attempt to match the number pattern at the head of `l`; returns the
matched characters and the remaining input. -/
def matchNumAt (l : List Char) : Option (List Char × List Char) :=
  let (sgn, rest) :=
    match l with
    | c :: cs => if c = '-' ∨ c = '+' then ([c], cs) else ([], l)
    | [] => ([], l)
  let d1 := rest.takeWhile isDigit
  let afterD1 := rest.drop d1.length
  if d1 ≠ [] then
    match afterD1 with
    | '.' :: cs =>
        let d2 := cs.takeWhile isDigit
        if d2 ≠ [] then
          some (sgn ++ d1 ++ '.' :: d2, cs.drop d2.length)
        else
          some (sgn ++ d1, afterD1)
    | _ => some (sgn ++ d1, afterD1)
  else
    match afterD1 with
    | '.' :: cs =>
        let d2 := cs.takeWhile isDigit
        if d2 ≠ [] then some (sgn ++ '.' :: d2, cs.drop d2.length) else none
    | _ => none

/-- All matches of the number pattern, scanning left to right
(`re.findall` semantics: on failure advance one character, on success
continue after the match).  Structured with explicit fuel; each step consumes
at least one input character, so `fuel = length` always suffices. -/
def findNumsAux : Nat → List Char → List (List Char)
  | 0, _ => []
  | _ + 1, [] => []
  | fuel + 1, c :: cs =>
    match matchNumAt (c :: cs) with
    | some (m, rest) => m :: findNumsAux fuel rest
    | none => findNumsAux fuel cs

def findNums (l : List Char) : List (List Char) := findNumsAux l.length l

/-- Python `float(...)` on a string produced by the number pattern
(optional sign, digits, optional dot with digits). -/
def numTokenToRat (tok : List Char) : ℚ :=
  let (neg, rest) :=
    match tok with
    | '-' :: cs => (true, cs)
    | '+' :: cs => (false, cs)
    | _ => (false, tok)
  let ip := rest.takeWhile isDigit
  let rest2 := rest.drop ip.length
  let fp :=
    match rest2 with
    | '.' :: cs => cs.takeWhile isDigit
    | _ => []
  let v := decimalToRat ip fp
  if neg then -v else v

/-- `float(sum(nums))` over the matches of the number pattern. -/
def sumNums (text : List Char) : ℚ :=
  ((findNums text).map numTokenToRat).sum

/-!
## Model of `base64.b64decode(payload).decode("utf-8", errors="ignore")`

Python's `b64decode` (`binascii.a2b_base64` in non-strict mode) scans the
input in quads of data characters, skipping characters outside the alphabet.
A `=` while the current quad holds at most one sextet is ignored; a `=` at
two sextets must be followed (after skipped characters) by a second `=`,
which emits one byte and ends the decode, anything after the padding being
discarded; a `=` at three sextets emits two bytes and ends the decode; input
that runs out mid-quad raises (`Incorrect padding` / invalid length), as the
unguarded trailing data of an unpadded payload does.
-/

def b64Val (c : Char) : Option Nat :=
  if 'A' ≤ c ∧ c ≤ 'Z' then some (c.toNat - 'A'.toNat)
  else if 'a' ≤ c ∧ c ≤ 'z' then some (c.toNat - 'a'.toNat + 26)
  else if '0' ≤ c ∧ c ≤ '9' then some (c.toNat - '0'.toNat + 52)
  else if c = '+' then some 62
  else if c = '/' then some 63
  else none

/-- Pack a list of 6-bit values into bytes (big-endian bit order),
keeping only whole bytes. -/
def sextetsToBytes (vs : List Nat) : List Nat :=
  let bits := vs.foldl (fun acc v => acc * 64 + v) 0
  let nbits := vs.length * 6
  let nbytes := nbits / 8
  let dropped := bits / 2 ^ (nbits % 8)
  (List.range nbytes).map fun i => dropped / 2 ^ ((nbytes - 1 - i) * 8) % 256

/-- After a `=` seen with two sextets pending: skip non-alphabet characters
until the closing `=` (emit the byte, stop) or a data character / the end of
input (`Incorrect padding`). -/
def b64AwaitPad (quad : List Nat) : Nat → List Char → Option (List Nat)
  | _, [] => none
  | 0, _ :: _ => none
  | fuel + 1, c :: cs =>
    match b64Val c with
    | some _ => none
    | none =>
      if c = '=' then some (sextetsToBytes quad)
      else b64AwaitPad quad fuel cs

def b64Aux : Nat → List Char → List Nat → Option (List Nat)
  | _, [], quad => if quad.isEmpty then some [] else none
  | 0, _ :: _, _ => none
  | fuel + 1, c :: cs, quad =>
    match b64Val c with
    | some v =>
      if quad.length = 3 then
        (b64Aux fuel cs []).map fun rest => sextetsToBytes (quad ++ [v]) ++ rest
      else b64Aux fuel cs (quad ++ [v])
    | none =>
      if c = '=' then
        if quad.length ≤ 1 then b64Aux fuel cs quad
        else if quad.length = 3 then some (sextetsToBytes quad)
        else b64AwaitPad quad fuel cs
      else b64Aux fuel cs quad

def b64decode (s : List Char) : Option (List Nat) :=
  b64Aux s.length s []

/-- UTF-8 decoding with `errors="ignore"`: bytes that do not start a valid
sequence are skipped.  Continuation bytes are in `0x80..0xBF`. -/
def isCont (b : Nat) : Bool := 128 ≤ b ∧ b < 192

def utf8DecodeAux : Nat → List Nat → List Char
  | 0, _ => []
  | _ + 1, [] => []
  | fuel + 1, b :: bs =>
    if b < 128 then Char.ofNat b :: utf8DecodeAux fuel bs
    else if 194 ≤ b ∧ b < 224 then
      match bs with
      | b2 :: rest =>
        if isCont b2 then
          Char.ofNat ((b - 192) * 64 + (b2 - 128)) :: utf8DecodeAux fuel rest
        else utf8DecodeAux fuel bs
      | [] => []
    else if 224 ≤ b ∧ b < 240 then
      match bs with
      | b2 :: b3 :: rest =>
        if isCont b2 ∧ isCont b3 then
          let cp := (b - 224) * 4096 + (b2 - 128) * 64 + (b3 - 128)
          if 2048 ≤ cp ∧ ¬(55296 ≤ cp ∧ cp ≤ 57343) then
            Char.ofNat cp :: utf8DecodeAux fuel rest
          else utf8DecodeAux fuel bs
        else utf8DecodeAux fuel bs
      | _ => utf8DecodeAux fuel bs
    else if 240 ≤ b ∧ b < 245 then
      match bs with
      | b2 :: b3 :: b4 :: rest =>
        if isCont b2 ∧ isCont b3 ∧ isCont b4 then
          let cp := (b - 240) * 262144 + (b2 - 128) * 4096 + (b3 - 128) * 64 + (b4 - 128)
          if 65536 ≤ cp ∧ cp ≤ 1114111 then
            Char.ofNat cp :: utf8DecodeAux fuel rest
          else utf8DecodeAux fuel bs
        else utf8DecodeAux fuel bs
      | _ => utf8DecodeAux fuel bs
    else utf8DecodeAux fuel bs

/-- `bytes.decode("utf-8", errors="ignore")`. -/
def utf8DecodeIgnore (bs : List Nat) : List Char := utf8DecodeAux bs.length bs

/-- Strict UTF-8 decoding (`errors="strict"`), as used by `pd.read_csv` on a
byte stream: any invalid sequence fails the whole decode. -/
def utf8DecodeStrictAux : Nat → List Nat → Option (List Char)
  | 0, [] => some []
  | 0, _ :: _ => none
  | _ + 1, [] => some []
  | fuel + 1, b :: bs =>
    if b < 128 then (utf8DecodeStrictAux fuel bs).map (Char.ofNat b :: ·)
    else if 194 ≤ b ∧ b < 224 then
      match bs with
      | b2 :: rest =>
        if isCont b2 then
          (utf8DecodeStrictAux fuel rest).map (Char.ofNat ((b - 192) * 64 + (b2 - 128)) :: ·)
        else none
      | [] => none
    else if 224 ≤ b ∧ b < 240 then
      match bs with
      | b2 :: b3 :: rest =>
        if isCont b2 ∧ isCont b3 then
          let cp := (b - 224) * 4096 + (b2 - 128) * 64 + (b3 - 128)
          if 2048 ≤ cp ∧ ¬(55296 ≤ cp ∧ cp ≤ 57343) then
            (utf8DecodeStrictAux fuel rest).map (Char.ofNat cp :: ·)
          else none
        else none
      | _ => none
    else if 240 ≤ b ∧ b < 245 then
      match bs with
      | b2 :: b3 :: b4 :: rest =>
        if isCont b2 ∧ isCont b3 ∧ isCont b4 then
          let cp := (b - 240) * 262144 + (b2 - 128) * 4096 + (b3 - 128) * 64 + (b4 - 128)
          if 65536 ≤ cp ∧ cp ≤ 1114111 then
            (utf8DecodeStrictAux fuel rest).map (Char.ofNat cp :: ·)
          else none
        else none
      | _ => none
    else none

def utf8DecodeStrict (bs : List Nat) : Option (List Char) :=
  utf8DecodeStrictAux bs.length bs

/-!
## Model of `json.loads`

JSON values; numbers are modelled as `ℚ` (Python ints and floats collapse, all
claim-relevant values are exact).  Objects are insertion-ordered association
lists with the `dict` semantics of `json.loads`: a repeated key keeps its first
position and its last value.  `dict` equality in the claims is only ever used
on identically-ordered objects, where association-list equality coincides.
-/

inductive Json where
  | null : Json
  | bool (b : Bool) : Json
  | num (q : ℚ) : Json
  | str (s : List Char) : Json
  | arr (xs : List Json) : Json
  | obj (kvs : List (List Char × Json)) : Json

def jsonWs (c : Char) : Bool := c = ' ' ∨ c = '\t' ∨ c = '\n' ∨ c = '\r'

def skipJsonWs (l : List Char) : List Char := l.dropWhile jsonWs

def hexVal (c : Char) : Option Nat :=
  if '0' ≤ c ∧ c ≤ '9' then some (c.toNat - '0'.toNat)
  else if 'a' ≤ c ∧ c ≤ 'f' then some (c.toNat - 'a'.toNat + 10)
  else if 'A' ≤ c ∧ c ≤ 'F' then some (c.toNat - 'A'.toNat + 10)
  else none

/-- Parse the body of a JSON string literal (after the opening quote). -/
def parseJStr : Nat → List Char → Option (List Char × List Char)
  | 0, _ => none
  | _ + 1, [] => none
  | fuel + 1, c :: cs =>
    if c = '"' then some ([], cs)
    else if c = '\\' then
      match cs with
      | e :: rest =>
        let parsed : Option (Char × List Char) :=
          if e = '"' then some ('"', rest)
          else if e = '\\' then some ('\\', rest)
          else if e = '/' then some ('/', rest)
          else if e = 'b' then some (Char.ofNat 8, rest)
          else if e = 'f' then some (Char.ofNat 12, rest)
          else if e = 'n' then some ('\n', rest)
          else if e = 'r' then some ('\r', rest)
          else if e = 't' then some ('\t', rest)
          else if e = 'u' then
            match rest with
            | h1 :: h2 :: h3 :: h4 :: rest' =>
              match hexVal h1, hexVal h2, hexVal h3, hexVal h4 with
              | some v1, some v2, some v3, some v4 =>
                some (Char.ofNat (((v1 * 16 + v2) * 16 + v3) * 16 + v4), rest')
              | _, _, _, _ => none
            | _ => none
          else none
        match parsed with
        | some (ch, rest') =>
          (parseJStr fuel rest').map fun (s, rem) => (ch :: s, rem)
        | none => none
      | [] => none
    else if c.toNat < 32 then none
    else (parseJStr fuel cs).map fun (s, rem) => (c :: s, rem)

/-- Parse a JSON number per the strict RFC grammar used by `json.loads`. -/
def parseJNum (l : List Char) : Option (ℚ × List Char) :=
  let (neg, r1) :=
    match l with
    | '-' :: cs => (true, cs)
    | _ => (false, l)
  let ipRes : Option (List Char × List Char) :=
    match r1 with
    | '0' :: cs => some (['0'], cs)
    | c :: cs =>
      if isDigit c ∧ c ≠ '0' then
        some (c :: cs.takeWhile isDigit, cs.drop (cs.takeWhile isDigit).length)
      else none
    | [] => none
  match ipRes with
  | none => none
  | some (ip, r2) =>
    let (fp, r3) :=
      match r2 with
      | '.' :: cs =>
        let ds := cs.takeWhile isDigit
        if ds ≠ [] then (ds, cs.drop ds.length) else ([], r2)
      | _ => ([], r2)
    -- a dot not followed by a digit makes the whole number end before it;
    -- json.loads then fails on the leftover dot at the enclosing level
    let expRes : Option (Int × List Char) :=
      match r3 with
      | e :: cs =>
        if e = 'e' ∨ e = 'E' then
          let (esign, cs2) :=
            match cs with
            | '+' :: cs' => ((1 : Int), cs')
            | '-' :: cs' => ((-1 : Int), cs')
            | _ => ((1 : Int), cs)
          let ds := cs2.takeWhile isDigit
          if ds ≠ [] then some (esign * digitsToNat ds, cs2.drop ds.length)
          else some (0, r3)
        else some (0, r3)
      | [] => some (0, r3)
    match expRes with
    | none => none
    | some (ex, r4) =>
      let base := decimalToRat ip fp
      let v := base * pow10Int ex
      some (if neg then -v else v, r4)

/-- `dict` insertion: a repeated key keeps its first position, last value wins. -/
def objInsert (kvs : List (List Char × Json)) (k : List Char) (v : Json) :
    List (List Char × Json) :=
  match kvs with
  | [] => [(k, v)]
  | (k0, v0) :: rest =>
    if k0 = k then (k0, v) :: rest else (k0, v0) :: objInsert rest k v

mutual

def parseJVal : Nat → List Char → Option (Json × List Char)
  | 0, _ => none
  | fuel + 1, l =>
    match skipJsonWs l with
    | [] => none
    | c :: cs =>
      if c = '"' then (parseJStr (cs.length + 1) cs).map fun (s, r) => (Json.str s, r)
      else if c = '{' then parseJObj fuel (skipJsonWs cs) []
      else if c = '[' then parseJArr fuel (skipJsonWs cs) []
      else if chars "true" = c :: cs.take 3 then some (Json.bool true, cs.drop 3)
      else if chars "false" = c :: cs.take 4 then some (Json.bool false, cs.drop 4)
      else if chars "null" = c :: cs.take 3 then some (Json.null, cs.drop 3)
      else (parseJNum (c :: cs)).map fun (q, r) => (Json.num q, r)

/-- Members of an object, after the opening brace and leading whitespace. -/
def parseJObj : Nat → List Char → List (List Char × Json) →
    Option (Json × List Char)
  | 0, _, _ => none
  | fuel + 1, l, acc =>
    match l with
    | '}' :: r => if acc.isEmpty then some (Json.obj [], r) else none
    | '"' :: cs =>
      match parseJStr (cs.length + 1) cs with
      | none => none
      | some (k, r1) =>
        match skipJsonWs r1 with
        | ':' :: r2 =>
          match parseJVal fuel r2 with
          | none => none
          | some (v, r3) =>
            match skipJsonWs r3 with
            | ',' :: r4 => parseJObj fuel (skipJsonWs r4) (objInsert acc k v)
            | '}' :: r4 => some (Json.obj (objInsert acc k v), r4)
            | _ => none
        | _ => none
    | _ => none

/-- Items of an array, after the opening bracket and leading whitespace. -/
def parseJArr : Nat → List Char → List Json → Option (Json × List Char)
  | 0, _, _ => none
  | fuel + 1, l, acc =>
    match l with
    | ']' :: r => if acc.isEmpty then some (Json.arr [], r) else none
    | _ =>
      match parseJVal fuel l with
      | none => none
      | some (v, r1) =>
        match skipJsonWs r1 with
        | ',' :: r2 => parseJArr fuel r2 (acc ++ [v])
        | ']' :: r2 => some (Json.arr (acc ++ [v]), r2)
        | _ => none

end

/-- `json.loads`: parse one value, allow only trailing whitespace. -/
def jsonLoads (l : List Char) : Option Json :=
  match parseJVal (l.length + 1) l with
  | none => none
  | some (v, rest) => if skipJsonWs rest = [] then some v else none

/-- `key in parsedDict` / `parsedDict[key]`. -/
def jlookup (kvs : List (List Char × Json)) (k : List Char) : Option Json :=
  match kvs with
  | [] => none
  | (k0, v0) :: rest => if k0 = k then some v0 else jlookup rest k

/-!
## `extract_base64_from_page_html` (solver.py)

`re.search(r'atob\(\s*`([^`]+)`\s*\)', ...)` and its double- and single-quote
variants, tried in that order; the matched payload is base64-decoded and the
bytes decoded as UTF-8 with `errors="ignore"`.
-/

def backtick : Char := Char.ofNat 96

def singleQuote : Char := Char.ofNat 39

/-- Try the quoted-payload continuation right after a literal `atob(`. -/
def atobPayloadAt (q : Char) (l : List Char) : Option (List Char) :=
  match l.dropWhile isSpace with
  | c :: cs =>
    if c = q then
      let payload := cs.takeWhile (· ≠ q)
      match cs.drop payload.length with
      | _ :: cs' =>
        if payload.isEmpty then none
        else
          match cs'.dropWhile isSpace with
          | ')' :: _ => some payload
          | _ => none
      | [] => none
    else none
  | [] => none

def searchAtobAux (q : Char) : Nat → List Char → Option (List Char)
  | 0, _ => none
  | _ + 1, [] => none
  | fuel + 1, l@(_ :: rest) =>
    if (chars "atob(").isPrefixOf l then
      match atobPayloadAt q (l.drop 5) with
      | some p => some p
      | none => searchAtobAux q fuel rest
    else searchAtobAux q fuel rest

def searchAtob (q : Char) (l : List Char) : Option (List Char) :=
  searchAtobAux q l.length l

def extract_base64_from_page_html (html : List Char) : Option (List Char) :=
  if html.isEmpty then none
  else
    let m :=
      match searchAtob backtick html with
      | some p => some p
      | none =>
        match searchAtob '"' html with
        | some p => some p
        | none => searchAtob singleQuote html
    match m with
    | none => none
    | some payload =>
      match b64decode payload with
      | none => none
      | some bts => some (utf8DecodeIgnore bts)

/-!
## `find_json_in_text` (solver.py)

`re.search(r'(\{[\s\S]*\})', text)` takes the first `\x7b` through the last
`\x7d`; `json.loads` it; on failure strip `,\s*\x7d` then `,\s*]` occurrences
(`re.sub`, everywhere in the candidate, string literals included) and retry.
-/

def firstJsonCandidate (text : List Char) : Option (List Char) :=
  match text.dropWhile (· ≠ '{') with
  | [] => none
  | l =>
    let tailLen := (l.reverse.takeWhile (· ≠ '}')).length
    if tailLen = l.length then none
    else some (l.take (l.length - tailLen))

/-- `re.sub(r",\s*C", "C", s)` for a closing character `C`: non-overlapping
leftmost matches, scanning resumes after each replacement. -/
def subCommaCloseAux (close : Char) : Nat → List Char → List Char
  | 0, l => l
  | _ + 1, [] => []
  | fuel + 1, c :: cs =>
    if c = ',' then
      let ws := cs.takeWhile isSpace
      match cs.drop ws.length with
      | d :: rest =>
        if d = close then close :: subCommaCloseAux close fuel rest
        else c :: subCommaCloseAux close fuel cs
      | [] => c :: subCommaCloseAux close fuel cs
    else c :: subCommaCloseAux close fuel cs

def subCommaClose (close : Char) (l : List Char) : List Char :=
  subCommaCloseAux close l.length l

def find_json_in_text (text : List Char) : Option Json :=
  if text.isEmpty then none
  else
    match firstJsonCandidate text with
    | none => none
    | some cand =>
      match jsonLoads cand with
      | some v => some v
      | none => jsonLoads (subCommaClose ']' (subCommaClose '}' cand))

/-!
## URL scans

`re.findall(r'https?://[^\s\'"<>]+', decoded)` and the submit-endpoint search
`re.search(r"https?://[^\s'\"<>]+/submit[^\s'\"<>]*", ..., re.I)` shared by
`utils.parse_submit_instruction` and `QuizSolver.run`.
-/

def urlChar (c : Char) : Bool :=
  ¬(isSpace c ∨ c = singleQuote ∨ c = '"' ∨ c = '<' ∨ c = '>')

/-- Match `https?://` case-insensitively at the head — only the submit-URL
`re.search` carries `re.I`; returns the matched original characters and the
remainder. -/
def schemeSplit (l : List Char) : Option (List Char × List Char) :=
  if lowerStr (l.take 4) = chars "http" then
    let rest4 := l.drop 4
    if lowerStr (rest4.take 4) = chars "s://" then some (l.take 8, l.drop 8)
    else if lowerStr (rest4.take 3) = chars "://" then some (l.take 7, l.drop 7)
    else none
  else none

/-- Match `https?://` at the head, case-sensitively: the raw-URL `re.findall`
in `compute_answer_from_page_content` has no `re.I`. -/
def schemeSplitCS (l : List Char) : Option (List Char × List Char) :=
  if l.take 4 = chars "http" then
    let rest4 := l.drop 4
    if rest4.take 4 = chars "s://" then some (l.take 8, l.drop 8)
    else if rest4.take 3 = chars "://" then some (l.take 7, l.drop 7)
    else none
  else none

def matchUrlAt (l : List Char) : Option (List Char × List Char) :=
  match schemeSplitCS l with
  | none => none
  | some (sch, rest) =>
    let run := rest.takeWhile urlChar
    if run.isEmpty then none else some (sch ++ run, rest.drop run.length)

def findUrlsAux : Nat → List Char → List (List Char)
  | 0, _ => []
  | _ + 1, [] => []
  | fuel + 1, l@(_ :: cs) =>
    match matchUrlAt l with
    | some (m, rest) => m :: findUrlsAux fuel rest
    | none => findUrlsAux fuel cs

/-- `re.findall(r'https?://[^\s\'"<>]+', text)`; the `http` literal here is
case-sensitive (no `re.I` on this call site). -/
def findUrls (l : List Char) : List (List Char) := findUrlsAux l.length l

/-- Does the post-scheme run contain `/submit` (case-insensitively) at an
index ≥ 1 (the `[^...]+` before `/submit` needs at least one character)? -/
def submitRunOk (run : List Char) : Bool :=
  (List.range run.length).any fun i =>
    1 ≤ i ∧ (chars "/submit").isPrefixOf (lowerStr (run.drop i))

def matchSubmitAt (l : List Char) : Option (List Char) :=
  match schemeSplit l with
  | none => none
  | some (sch, rest) =>
    let run := rest.takeWhile urlChar
    if submitRunOk run then some (sch ++ run) else none

def findSubmitUrlAux : Nat → List Char → Option (List Char)
  | 0, _ => none
  | _ + 1, [] => none
  | fuel + 1, l@(_ :: cs) =>
    match matchSubmitAt l with
    | some m => some m
    | none => findSubmitUrlAux fuel cs

/-- `re.search(r"https?://[^\s'\"<>]+/submit[^\s'\"<>]*", text, re.I)`. -/
def findSubmitUrl (l : List Char) : Option (List Char) :=
  findSubmitUrlAux l.length l

/-!
## `parse_submit_instruction` (utils.py)

`preText` is the text of the first `<pre>` element as extracted by
BeautifulSoup (an excluded library capability; `none` when the page has no
`<pre>`).  Step 2 scans the parsed object's top-level items in order and only
fills `submit_url` when step 1 left it `None` (`submit_url = submit_url or v`);
a non-object parse raises inside the `try` and contributes nothing.
-/

def scanKvs : List (List Char × Json) → Option (List Char)
  | [] => none
  | (_, Json.str v) :: rest =>
    if containsSub v (chars "/submit") then some v else scanKvs rest
  | _ :: rest => scanKvs rest

def parse_submit_instruction (html : List Char) (preText : Option (List Char))
    (visible : List Char) : Option (List Char) :=
  let s1 := findSubmitUrl html
  let s2 :=
    match preText with
    | none => s1
    | some p =>
      match jsonLoads p with
      | some (Json.obj kvs) =>
        match s1 with
        | some u => some u
        | none => scanKvs kvs
      | _ => s1
  match s2 with
  | some u => some u
  | none => findSubmitUrl visible

/-!
## Free-text heuristics (`QuizSolver.run` stage 4, `utils.try_parse_number_from_text`)
-/

def isAlphaNum (c : Char) : Bool :=
  ('A' ≤ c ∧ c ≤ 'Z') ∨ ('a' ≤ c ∧ c ≤ 'z') ∨ isDigit c

def isWordChar (c : Char) : Bool := isAlphaNum c ∨ c = '_'

def colChar (c : Char) : Bool := isAlphaNum c ∨ c = ' ' ∨ c = '_' ∨ c = '-'

/-- Rightmost `page\s*(\d+)` (case-insensitive) in `r`, modelling the greedy
`.*` (with `re.DOTALL`) preceding it in the phrase pattern. -/
def pageAt (r : List Char) (i : Nat) : Option Nat :=
  let t := r.drop i
  if lowerStr (t.take 4) = chars "page" then
    let u := (t.drop 4).dropWhile isSpace
    let ds := u.takeWhile isDigit
    if ds.isEmpty then none else some (digitsToNat ds)
  else none

def pageSearchRight (r : List Char) : Option Nat :=
  (List.range r.length).foldl
    (fun acc i => match pageAt r i with | some v => some v | none => acc) none

/-- Continuation of the phrase pattern after `sum of the ` and an optional
opening quote: a greedy nonempty `[A-Za-z0-9 _-]+` column name (longest length
whose continuation matches wins), an optional closing quote, the literal
` column` (case-insensitive), then `.*page\s*(\d+)`. -/
def phraseColLoop (rest : List Char) : Nat → Option (List Char × Nat)
  | 0 => none
  | len + 1 =>
    let afterCol := rest.drop (len + 1)
    let afterQuote :=
      match afterCol with
      | c :: cs => if c = '"' ∨ c = singleQuote then cs else afterCol
      | [] => afterCol
    if lowerStr (afterQuote.take 7) = chars " column" then
      match pageSearchRight (afterQuote.drop 7) with
      | some pg => some (rest.take (len + 1), pg)
      | none => phraseColLoop rest len
    else phraseColLoop rest len

def phraseMatchAt (l : List Char) : Option (List Char × Nat) :=
  if lowerStr (l.take 11) = chars "sum of the " then
    let rest0 := l.drop 11
    let rest :=
      match rest0 with
      | c :: cs => if c = '"' ∨ c = singleQuote then cs else rest0
      | [] => rest0
    phraseColLoop rest (rest.takeWhile colChar).length
  else none

def phraseMatchAux : Nat → List Char → Option (List Char × Nat)
  | 0, _ => none
  | _ + 1, [] => none
  | fuel + 1, l@(_ :: cs) =>
    match phraseMatchAt l with
    | some m => some m
    | none => phraseMatchAux fuel cs

/-- `re.search(r"sum of the [\"']?(?P<col>[A-Za-z0-9 _-]+)[\"']? column.*page\s*(?P<page>\d+)",
text, re.IGNORECASE | re.DOTALL)`, returning the column name and page number. -/
def phraseMatch (text : List Char) : Option (List Char × Nat) :=
  phraseMatchAux text.length text

def noWordCharHead (l : List Char) : Bool :=
  match l with
  | [] => true
  | c :: _ => ¬isWordChar c

/-- Case-insensitive whole-word occurrence of `w` at index `i` of `text`
(`\bw\b` with `re.I`). -/
def wordAt (w : List Char) (text : List Char) (i : Nat) : Bool :=
  let t := text.drop i
  lowerStr (t.take w.length) = w ∧ w.length ≤ t.length ∧
    noWordCharHead (text.take i).reverse ∧ noWordCharHead (t.drop w.length)

/-- `re.search(r"\btrue or false\b", text, re.I)`. -/
def hasTrueOrFalse (text : List Char) : Bool :=
  (List.range (text.length + 1)).any fun i => wordAt (chars "true or false") text i

/-- `re.search(r"\b(sum|total|subtotal|aggregate|answer)\b", text, re.I)`. -/
def hasSumWord (text : List Char) : Bool :=
  (List.range (text.length + 1)).any fun i =>
    wordAt (chars "sum") text i ∨ wordAt (chars "total") text i ∨
      wordAt (chars "subtotal") text i ∨ wordAt (chars "aggregate") text i ∨
      wordAt (chars "answer") text i

/-- One match of `[-+]?\d{1,3}(?:,\d{3})*(?:\.\d+)?|\d+\.\d+|\d+` at the head.
The first alternative subsumes the others whenever a digit (after an optional
sign) is present, so only it is modelled. -/
def matchNum2At (l : List Char) : Option (List Char × List Char) :=
  let (sgn, rest) :=
    match l with
    | c :: cs => if c = '-' ∨ c = '+' then ([c], cs) else ([], l)
    | [] => ([], l)
  let run := rest.takeWhile isDigit
  if run.isEmpty then none
  else
    let d1 := run.take 3
    -- comma groups `(?:,\d{3})*`, greedy
    let rec grp : Nat → List Char → List Char × List Char
      | 0, l0 => ([], l0)
      | fuel + 1, l0 =>
        match l0 with
        | ',' :: cs =>
          let ds := cs.takeWhile isDigit
          if 3 ≤ ds.length then
            let (more, rem) := grp fuel (cs.drop 3)
            (',' :: ds.take 3 ++ more, rem)
          else ([], l0)
        | _ => ([], l0)
    let afterD1 := rest.drop d1.length
    let (gs, r2) := grp afterD1.length afterD1
    let (fr, r3) :=
      match r2 with
      | '.' :: cs =>
        let ds := cs.takeWhile isDigit
        if ds.isEmpty then (([] : List Char), r2)
        else ('.' :: ds, cs.drop ds.length)
      | _ => ([], r2)
    some (sgn ++ d1 ++ gs ++ fr, r3)

def findNums2Aux : Nat → List Char → List (List Char)
  | 0, _ => []
  | _ + 1, [] => []
  | fuel + 1, l@(_ :: cs) =>
    match matchNum2At l with
    | some (m, rest) => m :: findNums2Aux fuel rest
    | none => findNums2Aux fuel cs

def findNums2 (l : List Char) : List (List Char) := findNums2Aux l.length l

/-- `try_parse_number_from_text` (utils.py): find comma-grouped numbers in the
text (en-dash replaced by `-` first), parse them with commas stripped, and
return the largest when the original text mentions a sum-like word, else the
first; `None` when no number parses. -/
def try_parse_number_from_text (text : List Char) : Option ℚ :=
  if text.isEmpty then none
  else
    let replaced := text.map fun c => if c.toNat = 8211 then '-' else c
    let parsed := (findNums2 replaced).map fun tok =>
      numTokenToRat (tok.filter (· ≠ ','))
    match parsed with
    | [] => none
    | p :: ps =>
      if hasSumWord text then some (ps.foldl max p) else some p

/-!
## Tabular model (`pd.read_csv` and column aggregation)

A parsed DataFrame is a list of named columns; a missing cell (empty CSV
field) is `none`.  A column has numeric dtype exactly when every non-missing
cell parses as a Python float (`colAstype` succeeds); bool/date dtype
inference and quoted CSV fields are outside this model (no claim touches
them).  `pd.read_csv` errors when a row has more fields than the header and
pads shorter rows with missing values; blank lines are skipped.
-/

structure Column where
  name : List Char
  cells : List (Option (List Char))

/-- Python `float(s)` on a string: optional surrounding whitespace and sign,
`digits[.digits*]` or `.digits+`, optional exponent. -/
def pyFloat (s : List Char) : Option ℚ :=
  let t := stripStr s
  let (neg, r1) :=
    match t with
    | '-' :: cs => (true, cs)
    | '+' :: cs => (false, cs)
    | _ => (false, t)
  let ip := r1.takeWhile isDigit
  let r2 := r1.drop ip.length
  let (fp, r3, okMantissa) :=
    match r2 with
    | '.' :: cs =>
      let ds := cs.takeWhile isDigit
      (ds, cs.drop ds.length, !ip.isEmpty || !ds.isEmpty)
    | _ => (([] : List Char), r2, !ip.isEmpty)
  if !okMantissa then none
  else
    let expRes : Option Int :=
      match r3 with
      | [] => some 0
      | e :: cs =>
        if e = 'e' ∨ e = 'E' then
          let (es, cs2) :=
            match cs with
            | '+' :: cs' => ((1 : Int), cs')
            | '-' :: cs' => ((-1 : Int), cs')
            | _ => ((1 : Int), cs)
          let ds := cs2.takeWhile isDigit
          if ¬ds.isEmpty ∧ (cs2.drop ds.length).isEmpty then
            some (es * (digitsToNat ds : Int))
          else none
        else none
    match expRes with
    | none => none
    | some ex =>
      some ((if neg then (-1 : ℚ) else 1) * decimalToRat ip fp * pow10Int ex)

def cellOf (s : List Char) : Option (List Char) :=
  if s.isEmpty then none else some s

def natToChars (n : Nat) : List Char := (toString n).data

/-- The pandas C tokenizer on the default dialect: `,` delimits, `"` opens a
quoted field at field start only, `""` inside quotes is a literal quote,
characters after the closing quote are appended to the field, `\r`, `\n` and
`\r\n` end a record, and blank lines are skipped (`skip_blank_lines`).
`state`: 0 at field start, 1 inside an unquoted field (or after a closing
quote), 2 inside a quoted field; `cur` holds the current field reversed.
`none` when the input ends inside a quoted field (pandas raises). -/
def csvRecsAux : Nat → List Char → Nat → List Char → List (List Char) →
    List (List (List Char)) → Option (List (List (List Char)))
  | _, [], state, cur, fields, recs =>
    if state = 2 then none
    else if state = 0 ∧ cur.isEmpty ∧ fields.isEmpty then some recs
    else some (recs ++ [fields ++ [cur.reverse]])
  | 0, _ :: _, _, _, _, _ => none
  | fuel + 1, c :: cs, state, cur, fields, recs =>
    if state = 2 then
      if c = '"' then
        match cs with
        | '"' :: cs' => csvRecsAux fuel cs' 2 ('"' :: cur) fields recs
        | _ => csvRecsAux fuel cs 1 cur fields recs
      else csvRecsAux fuel cs 2 (c :: cur) fields recs
    else if c = ',' then
      csvRecsAux fuel cs 0 [] (fields ++ [cur.reverse]) recs
    else if c = '\n' ∨ c = '\r' then
      let cs' := if c = '\r' then
          match cs with
          | '\n' :: cs2 => cs2
          | _ => cs
        else cs
      if state = 0 ∧ cur.isEmpty ∧ fields.isEmpty then
        csvRecsAux fuel cs' 0 [] [] recs
      else csvRecsAux fuel cs' 0 [] [] (recs ++ [fields ++ [cur.reverse]])
    else if state = 0 ∧ c = '"' then
      csvRecsAux fuel cs 2 cur fields recs
    else csvRecsAux fuel cs 1 (c :: cur) fields recs

def csvRecords (t : List Char) : Option (List (List (List Char))) :=
  csvRecsAux t.length t 0 [] [] []

def alGet (m : List (List Char × Nat)) (k : List Char) : Nat :=
  match m.find? fun p => p.1 = k with
  | some p => p.2
  | none => 0

def alSet (m : List (List Char × Nat)) (k : List Char) (v : Nat) :
    List (List Char × Nat) :=
  (k, v) :: m

/-- One column name through pandas' dedup loop: while the name was already
seen, bump its count and retry with `name.<count>`. -/
def dedupGo : Nat → List (List Char × Nat) → List Char →
    List Char × List (List Char × Nat)
  | 0, counts, col => (col, counts)
  | fuel + 1, counts, col =>
    let cur := alGet counts col
    if cur = 0 then (col, counts)
    else dedupGo fuel (alSet counts col (cur + 1))
      (col ++ '.' :: natToChars cur)

/-- Pandas' duplicate-header mangling: `value,value` becomes
`value`, `value.1`. -/
def dedupNames (raw : List (List Char)) : List (List Char) :=
  (raw.foldl
    (fun (acc : List (List Char) × List (List Char × Nat)) col =>
      let r := dedupGo (raw.length + 1) acc.2 col
      (acc.1 ++ [r.1], alSet r.2 r.1 1))
    ([], [])).1

/-- Parse CSV text into named columns (`pd.read_csv`): the tokenizer's first
record is the header — empty names become `Unnamed: <i>`, duplicates are
mangled — and the rest are the data rows. -/
def parseCsvText (t : List Char) : Option (List Column) :=
  match csvRecords t with
  | none => none
  | some [] => none
  | some (header :: dataRows) =>
    let hs := dedupNames (header.enum.map fun p =>
      if p.2.isEmpty then chars "Unnamed: " ++ natToChars p.1 else p.2)
    if dataRows.any fun r => hs.length < r.length then none
    else
      some <| (List.range hs.length).map fun j =>
        { name := hs.getD j []
          cells := dataRows.map fun r => (r.get? j).bind cellOf }

/-- `pd.read_csv(io.BytesIO(bts))`: strict UTF-8. -/
def parseCsvBytesStrict (b : List Nat) : Option (List Column) :=
  (utf8DecodeStrict b).bind parseCsvText

/-- The two-attempt parse of `sum_csv_value_column_from_bytes`: strict bytes
first, then `bts.decode("utf-8", errors="ignore")` through `StringIO`. -/
def parseCsvBytesLenient (b : List Nat) : Option (List Column) :=
  match parseCsvBytesStrict b with
  | some cols => some cols
  | none => parseCsvText (utf8DecodeIgnore b)

def nonMissing (c : Column) : List (List Char) := c.cells.filterMap id

/-- `df[col].dropna().astype(float).sum()`: fails when any non-missing cell
does not parse; the empty sum is `0`. -/
def colAstype (c : Column) : Option ℚ :=
  ((nonMissing c).mapM pyFloat).map List.sum

/-- `pd.to_numeric(col, errors="coerce").dropna().sum()`. -/
def sumCoerce (c : Column) : ℚ :=
  ((nonMissing c).filterMap pyFloat).sum

/-- The `value`-column loop of `sum_csv_value_column_from_bytes`: first column
whose stripped lower-cased name is `value` and whose `astype(float)` does not
raise; a raising candidate is skipped (`continue`). -/
def firstValueColSum : List Column → Option ℚ
  | [] => none
  | c :: rest =>
    if lowerStr (stripStr c.name) = chars "value" then
      match colAstype c with
      | some s => some s
      | none => firstValueColSum rest
    else firstValueColSum rest

/-- `df.select_dtypes(include="number")` first column, summed. -/
def firstNumericColSum (cols : List Column) : Option ℚ :=
  (cols.find? fun c => (colAstype c).isSome).bind colAstype

def sum_csv_value_column_from_bytes (b : List Nat) : Option ℚ :=
  match parseCsvBytesLenient b with
  | none => none
  | some cols =>
    match firstValueColSum cols with
    | some s => some s
    | none =>
      match firstNumericColSum cols with
      | some s => some s
      | none =>
        match cols with
        | [] => none
        | c :: _ => some (sumCoerce c)

/-- Column selection of the run's CSV-asset branch (solver.py lines 357-368):
exact `c.lower() == "value"` (no strip) first, else first numeric column; the
chosen name must be truthy (non-empty); `float(df[candidate].sum())` raises on
an object-dtype column, leaving no candidate. -/
def runCsvPick (cols : List Column) : Option (ℚ × List Char) :=
  let cand :=
    match cols.find? fun c => lowerStr c.name = chars "value" with
    | some c => some c
    | none => cols.find? fun c => (colAstype c).isSome
  match cand with
  | none => none
  | some c =>
    if c.name.isEmpty then none
    else (colAstype c).map fun s => (s, c.name)

/-- Column selection of the DOM-table branch (solver.py lines 386-397): like
`runCsvPick` but the candidate test is `is not None` (no truthiness check). -/
def domPick (cols : List Column) : Option (ℚ × List Char) :=
  let cand :=
    match cols.find? fun c => lowerStr c.name = chars "value" with
    | some c => some c
    | none => cols.find? fun c => (colAstype c).isSome
  match cand with
  | none => none
  | some c => (colAstype c).map fun s => (s, c.name)

/-!
## PDF model (`sum_pdf_value_like_from_bytes`, `extract_text_from_pdf_pages`)

A parsed PDF document is the per-page output of the pdfplumber capability:
extracted tables (rows of optional cells) and page text.
-/

structure PdfPage where
  tables : List (List (List (Option (List Char))))
  text : List Char

abbrev PdfDoc := List PdfPage

/-- Does `x` occur more than once in `l`? (`df[col]` on a duplicated column
name returns a DataFrame and `pd.to_numeric` raises, skipping the name.) -/
def dupIn (l : List (Option (List Char))) (x : Option (List Char)) : Bool :=
  2 ≤ (l.filter (· = x)).length

/-- Candidate sums contributed by one extracted table: per distinct column
name, `pd.to_numeric(df[col], errors="coerce").dropna().sum()`, kept when
nonzero; tables with fewer than two rows or ragged rows contribute nothing
(the `DataFrame` constructor raises and the table is skipped). -/
def tableSums (table : List (List (Option (List Char)))) : List ℚ :=
  match table with
  | [] => []
  | header :: rows =>
    if rows.isEmpty then []
    else if rows.any fun r => r.length ≠ header.length then []
    else
      (List.range header.length).filterMap fun j =>
        if dupIn header (header.getD j none) then none
        else
          let s := (rows.filterMap fun r => (r.getD j none).bind pyFloat).sum
          if s ≠ 0 then some s else none

/-- Candidate sums of one page: every (nonzero) table-column sum, then the sum
of the free-text numbers when at least one number matches. -/
def pageSums (p : PdfPage) : List ℚ :=
  (p.tables.map tableSums).flatten ++
    (if (findNums p.text).isEmpty then [] else [sumNums p.text])

/-- `sum_pdf_value_like_from_bytes` after the pdfplumber parse: collect the
candidate sums of every page and return their maximum, `None` when there are
none. -/
def sum_pdf_value_like (doc : PdfDoc) : Option ℚ :=
  match (doc.map pageSums).flatten with
  | [] => none
  | s :: rest => some (rest.foldl max s)

/-- `extract_text_from_pdf_pages` (utils.py): texts of the 1-based pages that
are in range, joined by newlines. -/
def extract_text_from_pdf_pages (doc : PdfDoc) (pages : List Nat) : List Char :=
  List.intercalate (chars "\n") <|
    (pages.filterMap fun p =>
      if 1 ≤ p ∧ p ≤ doc.length then some (p - 1) else none).map
      fun i => ((doc.get? i).map PdfPage.text).getD []

/-!
## Effect environment for `QuizSolver.run`

Every browser / network / excluded-library call site of the run gets one
environment field describing its outcome; `Exc` is a raised exception
(`timeout = true` for `PlaywrightTimeoutError`, which `except Exception`
handlers also catch).  The run returns its result together with the ordered
trace of outward effects (`Ev`) it performed.
-/

structure Exc where
  timeout : Bool
  msg : List Char

inductive Ev where
  | fetchBytes (url : List Char)
  | downloadFile (url : List Char)
  | queryTables
  | post (url : List Char)
  deriving DecidableEq

structure DFile where
  path : List Char
  bytes : List Nat

structure PostResp where
  code : Nat
  jsonBody : Option Json
  textBody : List Char

structure Payload where
  email : List Char
  secret : Option (List Char)
  url : List Char

structure Env where
  /-- browser launch, context and page creation (solver.py lines 288-291) -/
  launch : Except Exc Unit
  /-- `page.goto(url, wait_until="networkidle")` (line 294) -/
  goto : Except Exc Unit
  /-- `page.content()` (line 297) -/
  content1 : Except Exc (List Char)
  /-- `page.inner_text("body")` (line 300, caught: text defaults to "") -/
  innerText1 : Except Exc (List Char)
  /-- text of the first `<pre>` element of the given HTML (BeautifulSoup) -/
  preOf : List Char → Option (List Char)
  /-- `#result` query + `inner_html` (lines 312-317, caught: defaults None) -/
  resultEl1 : Except Exc (Option (List Char))
  /-- the same query inside `compute_answer_from_page_content` (line 187) -/
  resultEl2 : Except Exc (Option (List Char))
  /-- `page.content()` when `#result` is absent (line 188) -/
  content2 : Except Exc (List Char)
  /-- `page.content()` in the handler (line 190) -/
  content3 : Except Exc (List Char)
  /-- `page.inner_text("body")` in compute (line 245) -/
  innerText2 : Except Exc (List Char)
  /-- `page.content()` fallback for body text (line 247) -/
  content4 : Except Exc (List Char)
  /-- `download_file_to_bytes` (requests.get + raise_for_status) -/
  fetch : List Char → Except Exc (List Nat)
  /-- `pdfplumber.open(io.BytesIO(bts))` in `sum_pdf_value_like_from_bytes` -/
  parsePdf : List Nat → Except Exc PdfDoc
  /-- `soup.find_all("a", href=True)` hrefs of the given HTML (BeautifulSoup) -/
  linksOf : List Char → List (List Char)
  /-- `utils.download_file(url, dir)`: local path and file bytes -/
  download : List Char → Except Exc DFile
  /-- `pdfplumber.open(path)` in `extract_text_from_pdf_pages` -/
  openPdf : List Char → Except Exc PdfDoc
  /-- `page.query_selector_all("table")` (line 376): element count -/
  tablesCount : Except Exc Nat
  /-- `tables[0].inner_html()` (line 381) -/
  firstTableHtml : Except Exc (List Char)
  /-- `pd.read_html(...)`: list of parsed DataFrames -/
  readHtmlTables : List Char → Except Exc (List (List Column))
  /-- `requests.post(submit_url, json=..., timeout=60)` -/
  postReq : List Char → Payload → Json → Except Exc PostResp

/-- `sum_pdf_value_like_from_bytes`: the pdfplumber parse is the capability;
any exception it raises is caught by the function's own `try` (returns None). -/
def sumPdfBytes (env : Env) (b : List Nat) : Option ℚ :=
  match env.parsePdf b with
  | .ok doc => sum_pdf_value_like doc
  | .error _ => none

/-- Debug dict of `compute_answer_from_page_content`. -/
structure CDebug where
  steps : List (List Char)
  gotPageHtml : Bool
  decodedSnippet : Option (List Char)
  bodyExcerpt : Option (List Char)
  errorFlag : Bool

def initCDebug : CDebug := ⟨[], false, none, none, false⟩

/-- The second component returned by compute: `{"debug": .., "parsed"?, "url"?}`. -/
structure CInfo where
  debug : CDebug
  parsed : Option Json
  urlUsed : Option (List Char)

/-- The `for u in urls` loop over raw URLs found in the decoded payload
(solver.py lines 228-241): fetch each, return the CSV/PDF sum on first
success, skip fetch failures. -/
def urlLoop (env : Env) (d : CDebug) :
    List (List Char) → Option (Json × List Char) × CDebug × List Ev
  | [] => (none, d, [])
  | u :: rest =>
    let d1 := {d with steps := d.steps ++ [chars "found_url_in_decoded"]}
    match env.fetch u with
    | .error _ =>
      let lres := urlLoop env d1 rest
      (lres.1, lres.2.1, Ev.fetchBytes u :: lres.2.2)
    | .ok bts =>
      if lowerEndsWith u ".csv" ∧ (sum_csv_value_column_from_bytes bts).isSome then
        match sum_csv_value_column_from_bytes bts with
        | some a => (some (Json.num a, u), d1, [Ev.fetchBytes u])
        | none => (none, d1, [Ev.fetchBytes u])
      else if lowerEndsWith u ".pdf" ∧ (sumPdfBytes env bts).isSome then
        match sumPdfBytes env bts with
        | some a => (some (Json.num a, u), d1, [Ev.fetchBytes u])
        | none => (none, d1, [Ev.fetchBytes u])
      else
        let lres := urlLoop env d1 rest
        (lres.1, lres.2.1, Ev.fetchBytes u :: lres.2.2)

/-- Body-text fallback of compute (lines 243-254): body text from
`inner_text` or `content`, collect numbers, return their sum. -/
def bodyStage (env : Env) (d : CDebug) (evs0 : List Ev) :
    Option Json × CInfo × List Ev :=
  let btRes : Except Exc (List Char) :=
    match env.innerText2 with
    | .ok t => .ok t
    | .error _ => env.content4
  match btRes with
  | .error _ => (none, ⟨{d with errorFlag := true}, none, none⟩, evs0)
  | .ok bt =>
    let d1 := {d with
      bodyExcerpt := some (if bt.isEmpty then [] else bt.take 1000 ++ chars "...")}
    if (findNums bt).isEmpty then (none, ⟨d1, none, none⟩, evs0)
    else
      let d2 := {d1 with steps := d1.steps ++ [chars "fallback_sum_numbers_in_body"]}
      (some (Json.num (sumNums bt)), ⟨d2, none, none⟩, evs0)

/-- The structured part of the decoded-payload stage (lines 199-224):
`.inl` is an early `return`, `.inr` falls through to the raw-URL scan with the
accumulated debug and events.  `if parsed:` requires a non-empty dict; the
`answer` field short-circuits when present and non-null; a string `url` field
is fetched and summed (CSV / PDF by suffix, then a generic CSV attempt); a
non-string `url` makes `requests.get` raise before any call is issued. -/
def decodedJsonStage (env : Env) (d2 : CDebug) (parsed : Option Json) :
    Sum (Option Json × CInfo × List Ev) (CDebug × List Ev) :=
  match parsed with
  | some (Json.obj (kv :: kvs)) =>
    let kvsAll := kv :: kvs
    let d3 := {d2 with steps := d2.steps ++ [chars "found_json_in_decoded"]}
    let ansField :=
      match jlookup kvsAll (chars "answer") with
      | some Json.null => none
      | some v => some v
      | none => none
    match ansField with
    | some v => .inl (some v, ⟨d3, some (Json.obj kvsAll), none⟩, [])
    | none =>
      match jlookup kvsAll (chars "url") with
      | none => .inr (d3, [])
      | some uv =>
        let d4 := {d3 with steps := d3.steps ++ [chars "decoded_json_has_url"]}
        match uv with
        | Json.str u =>
          (match env.fetch u with
           | .error _ => .inr (d4, [Ev.fetchBytes u])
           | .ok bts =>
             let csvA := sum_csv_value_column_from_bytes bts
             let ans : Option ℚ :=
               if lowerEndsWith u ".csv" ∧ csvA.isSome then csvA
               else if lowerEndsWith u ".pdf" ∧ (sumPdfBytes env bts).isSome then
                 sumPdfBytes env bts
               else csvA
             match ans with
             | some a => .inl (some (Json.num a),
                 ⟨d4, some (Json.obj kvsAll), none⟩, [Ev.fetchBytes u])
             | none => .inr (d4, [Ev.fetchBytes u]))
        | _ => .inr (d4, [])
  | _ => .inr (d2, [])

/-- The page-HTML acquisition of compute (lines 185-190): the given
`#result` inner HTML, else a fresh query; any exception inside the inner
`try` — the query/`inner_html` raising, or the no-element `page.content()`
raising — falls to the handler's own `page.content()`, which can itself
raise, reaching the outer catch. -/
def computeHtml (env : Env) (phGiven : Option (List Char)) :
    Except Exc (List Char) :=
  match phGiven with
  | some h => .ok h
  | none =>
    match env.resultEl2 with
    | .ok (some h) => .ok h
    | .ok none =>
      match env.content2 with
      | .ok h => .ok h
      | .error _ => env.content3
    | .error _ => env.content3

/-- The decoded-payload stage (lines 194-241): everything compute does before
the body-text fallback.  `.inl` is an early `return` with an answer; `.inr`
falls through to the body stage with the accumulated debug and events. -/
def computeUpToBody (env : Env) (d1 : CDebug) (ph : List Char) :
    Sum (Option Json × CInfo × List Ev) (CDebug × List Ev) :=
  match extract_base64_from_page_html ph with
  | some (c :: cs) =>
    let dec := c :: cs
    let d2 := {d1 with steps := d1.steps ++ [chars "decoded_atob"],
                       decodedSnippet := some (dec.take 500)}
    (match decodedJsonStage env d2 (find_json_in_text dec) with
     | .inl res => .inl res
     | .inr pr =>
       let lres := urlLoop env pr.1 (findUrls dec)
       match lres.1 with
       | some ju => .inl (some ju.1, ⟨lres.2.1, none, some ju.2⟩, pr.2 ++ lres.2.2)
       | none => .inr (lres.2.1, pr.2 ++ lres.2.2))
  | _ => .inr (d1, [])

/-- `compute_answer_from_page_content` (solver.py lines 178-260). -/
def computeAnswer (env : Env) (phGiven : Option (List Char)) :
    Option Json × CInfo × List Ev :=
  match computeHtml env phGiven with
  | .error _ => (none, ⟨{initCDebug with errorFlag := true}, none, none⟩, [])
  | .ok ph =>
    match computeUpToBody env {initCDebug with gotPageHtml := true} ph with
    | .inl res => res
    | .inr (d, evs) => bodyStage env d evs

/-!
## The orchestrator: `QuizSolver.run` (solver.py lines 272-485)
-/

/-- Debug dict of the run. -/
structure Debug where
  steps : List (List Char)
  submitInfo : Option (List Char)
  computeInfo : Option CInfo
  answerValue : Option Json
  downloaded : Option (List Char)
  pdfPage2Text : Option (List Char)
  answerSource : Option (List Char)
  inferredCol : Option (List Char)
  inferredPage : Option Nat
  attemptedAnswer : Option Json
  submitUrl : Option (List Char)
  submitStatusCode : Option Nat
  submitResponse : Option Json
  submitResponseText : Option (List Char)

def initDebug : Debug :=
  ⟨[], none, none, none, none, none, none, none, none, none, none, none, none, none⟩

structure RunResult where
  status : List Char
  submitCode : Option Nat
  debug : Option Debug
  errMsg : Option (List Char)

/-- The top-level handlers (lines 480-485): a `PlaywrightTimeoutError` becomes
`playwright_timeout`, any other exception becomes `error`, both carrying
`str(e)`. -/
def excResult (e : Exc) : RunResult :=
  { status := if e.timeout then chars "playwright_timeout" else chars "error"
    submitCode := none, debug := none, errMsg := some e.msg }

/-- Stages 2-4 of the run (lines 332-426), entered only when compute produced
no answer: linked CSV/PDF assets, then the first DOM table, then the phrase /
true-or-false text heuristics.  `.error` propagates an exception raised by the
unguarded `page.query_selector_all("table")` call. -/
def fallbackStages (env : Env) (html text : List Char) (d : Debug) :
    Except (Exc × List Ev) (Option Json × Debug × List Ev) :=
  let links := env.linksOf html
  let pdfs := links.filter (lowerEndsWith · ".pdf")
  let csvs := links.filter (lowerEndsWith · ".csv")
  match pdfs ++ csvs with
  | assetUrl :: _ =>
    let d1 := {d with steps := d.steps ++ [chars "found_assets"]}
    (match env.download assetUrl with
     | .error _ => .ok (none, d1, [Ev.downloadFile assetUrl])
     | .ok f =>
       let d2 := {d1 with downloaded := some f.path}
       if lowerEndsWith f.path ".pdf" then
         match env.openPdf f.path with
         | .error _ => .ok (none, d2, [Ev.downloadFile assetUrl])
         | .ok doc =>
           let extracted := extract_text_from_pdf_pages doc [2]
           let d3 := {d2 with pdfPage2Text := some (extracted.take 2000)}
           match try_parse_number_from_text extracted with
           | some q => .ok (some (Json.num q),
               {d3 with answerSource := some (chars "pdf_infer_number")},
               [Ev.downloadFile assetUrl])
           | none => .ok (none, d3, [Ev.downloadFile assetUrl])
       else if lowerEndsWith f.path ".csv" then
         match parseCsvBytesStrict f.bytes with
         | none => .ok (none, d2, [Ev.downloadFile assetUrl])
         | some cols =>
           match runCsvPick cols with
           | some snm => .ok (some (Json.num snm.1),
               {d2 with answerSource := some (chars "csv_sum:" ++ snm.2)},
               [Ev.downloadFile assetUrl])
           | none => .ok (none, d2, [Ev.downloadFile assetUrl])
       else .ok (none, d2, [Ev.downloadFile assetUrl]))
  | [] =>
    match env.tablesCount with
    | .error e => .error (e, [Ev.queryTables])
    | .ok n =>
      if n ≠ 0 then
        let d1 := {d with steps := d.steps ++ [chars "dom_table_detected"]}
        (match env.firstTableHtml with
         | .error _ => .ok (none, d1, [Ev.queryTables])
         | .ok th =>
           match env.readHtmlTables th with
           | .error _ => .ok (none, d1, [Ev.queryTables])
           | .ok [] => .ok (none, d1, [Ev.queryTables])
           | .ok (df :: _) =>
             match domPick df with
             | some snm => .ok (some (Json.num snm.1),
                 {d1 with answerSource := some (chars "dom_table_sum:" ++ snm.2)},
                 [Ev.queryTables])
             | none => .ok (none, d1, [Ev.queryTables]))
      else
        let d1 := {d with steps := d.steps ++ [chars "text_inference"]}
        match phraseMatch text with
        | some cp =>
          let d2 := {d1 with inferredCol := some cp.1, inferredPage := some cp.2}
          (match pdfs with
           | [] => .ok (none, d2, [Ev.queryTables])
           | u :: _ =>
             match env.download u with
             | .error _ => .ok (none, d2, [Ev.queryTables, Ev.downloadFile u])
             | .ok f =>
               match env.openPdf f.path with
               | .error _ => .ok (none, d2, [Ev.queryTables, Ev.downloadFile u])
               | .ok doc =>
                 match try_parse_number_from_text
                     (extract_text_from_pdf_pages doc [cp.2]) with
                 | some q => .ok (some (Json.num q),
                     {d2 with answerSource := some (chars "pdf_page" ++
                       natToChars cp.2 ++ chars ":" ++ cp.1 ++ chars ":approx")},
                     [Ev.queryTables, Ev.downloadFile u])
                 | none => .ok (none, d2, [Ev.queryTables, Ev.downloadFile u]))
        | none =>
          if hasTrueOrFalse text then
            .ok (some (Json.bool true), d1, [Ev.queryTables])
          else .ok (none, d1, [Ev.queryTables])

/-- Submit-target resolution and submission (lines 428-470). -/
def submitStage (env : Env) (p : Payload) (html : List Char)
    (cand : Option Json) (d : Debug) (evs : List Ev) : RunResult × List Ev :=
  let d1 := {d with attemptedAnswer := cand}
  let submitUrl :=
    match d1.submitInfo with
    | some u => some u
    | none => findSubmitUrl html
  let d2 := {d1 with submitUrl := submitUrl}
  match submitUrl with
  | none =>
    ({status := chars "no_submit_url", submitCode := none, debug := some d2,
      errMsg := none}, evs)
  | some su =>
    match cand with
    | none =>
      ({status := chars "no_answer", submitCode := none, debug := some d2,
        errMsg := none}, evs)
    | some a =>
      match env.postReq su p a with
      | .ok resp =>
        let d3 := {d2 with
          submitStatusCode := some resp.code
          submitResponse := resp.jsonBody
          submitResponseText :=
            match resp.jsonBody with
            | some _ => none
            | none => some (resp.textBody.take 2000)}
        ({status := chars "submitted", submitCode := some resp.code,
          debug := some d3, errMsg := none}, evs ++ [Ev.post su])
      | .error _ =>
        ({status := chars "submit_failed", submitCode := none, debug := some d2,
          errMsg := none}, evs ++ [Ev.post su])

/-- The `text` snapshot variable of the run (lines 299-302): the body inner
text, defaulting to `""` when the call raises. -/
def runText (env : Env) : List Char :=
  match env.innerText1 with
  | .ok t => t
  | .error _ => []

/-- The `page_html_for_result` passed to compute (lines 311-317). -/
def runPhGiven (env : Env) : Option (List Char) :=
  match env.resultEl1 with
  | .ok r => r
  | .error _ => none

/-- The run's debug dict as it stands after the compute attempt (solver.py
lines 283-325): `page_loaded`, the submit instruction, the compute info, and
`answer_computed` / `no_answer_computed`. -/
def postComputeDebug (env : Env) (html : List Char) (cinfo : CInfo)
    (answer : Option Json) : Debug :=
  let d0 := {initDebug with steps := [chars "page_loaded"]}
  let d1 := {d0 with submitInfo := parse_submit_instruction html (env.preOf html) (runText env)}
  let d2 := {d1 with computeInfo := some cinfo}
  match answer with
  | some a => {d2 with steps := d2.steps ++ [chars "answer_computed"],
                       answerValue := some a}
  | none => {d2 with steps := d2.steps ++ [chars "no_answer_computed"]}

/-- `QuizSolver.run`. -/
def runSolver (env : Env) (p : Payload) : RunResult × List Ev :=
  match env.launch with
  | .error e => (excResult e, [])
  | .ok _ =>
    match env.goto with
    | .error e => (excResult e, [])
    | .ok _ =>
      match env.content1 with
      | .error e => (excResult e, [])
      | .ok html =>
        let cres := computeAnswer env (runPhGiven env)
        let answer := cres.1
        let evs1 := cres.2.2
        let d3 := postComputeDebug env html cres.2.1 answer
        match answer with
        | some a => submitStage env p html (some a) d3 evs1
        | none =>
          match fallbackStages env html (runText env) d3 with
          | .error r => (excResult r.1, evs1 ++ r.2)
          | .ok r => submitStage env p html r.1 r.2.1 (evs1 ++ r.2.2)

/-!
## Spec-side definitions (for refinement claims)
-/

/-- Modelled from the spec: the submit-target search order as stated — (1) the
`/submit` URL pattern on the raw HTML, (2) any top-level string value
containing `/submit` of a JSON object parsed from the first `<pre>` block,
(3) the same URL pattern on the visible text; first match by strict priority,
absent when none. -/
def preScanSpec (preText : Option (List Char)) : Option (List Char) :=
  match preText with
  | none => none
  | some p =>
    match jsonLoads p with
    | some (Json.obj kvs) => scanKvs kvs
    | _ => none

def submitLocatorSpec (html : List Char) (preText : Option (List Char))
    (visible : List Char) : Option (List Char) :=
  match findSubmitUrl html with
  | some u => some u
  | none =>
    match preScanSpec preText with
    | some u => some u
    | none => findSubmitUrl visible

/-- Modelled from the spec: the candidate sums of a PDF page as the claim
states them — every table column's numeric sum (no nonzero filter) and the
page's free-text number sum. -/
def pageSumsSpec (p : PdfPage) : List ℚ :=
  (p.tables.map fun table =>
    match table with
    | [] => []
    | header :: rows =>
      if rows.isEmpty then []
      else if rows.any fun r => r.length ≠ header.length then []
      else
        (List.range header.length).filterMap fun j =>
          if dupIn header (header.getD j none) then none
          else some (rows.filterMap fun r => (r.getD j none).bind pyFloat).sum).flatten
    ++ (if (findNums p.text).isEmpty then [] else [sumNums p.text])

/-- Modelled from the spec: maximum of all collected candidate sums, absent
when none. -/
def sumPdfSpec (doc : PdfDoc) : Option ℚ :=
  match (doc.map pageSumsSpec).flatten with
  | [] => none
  | s :: rest => some (rest.foldl max s)

/-- Does `,\s*C` (for `C` the closing character) match at the head? -/
def commaCloseAtHead (close : Char) (l : List Char) : Bool :=
  match l with
  | c :: cs =>
    if c = ',' then
      match cs.drop (cs.takeWhile isSpace).length with
      | d :: _ => d = close
      | [] => false
    else false
  | [] => false

/-- Any occurrence of the `,\s*C` pattern anywhere in the string. -/
def hasCommaCloseMatch (close : Char) : List Char → Bool
  | [] => false
  | c :: cs => commaCloseAtHead close (c :: cs) || hasCommaCloseMatch close cs

/-!
## Concrete environments and payloads used by witnesses and counterexamples
-/

def okE {α : Type} (x : α) : Except Exc α := Except.ok x

/-- A benign environment: every call succeeds with inert values, every
download fails, the page is empty. -/
def baseEnv : Env where
  launch := okE ()
  goto := okE ()
  content1 := okE []
  innerText1 := okE []
  preOf := fun _ => none
  resultEl1 := okE none
  resultEl2 := okE none
  content2 := okE []
  content3 := okE []
  innerText2 := okE []
  content4 := okE []
  fetch := fun _ => .error ⟨false, []⟩
  parsePdf := fun _ => .error ⟨false, []⟩
  linksOf := fun _ => []
  download := fun _ => .error ⟨false, []⟩
  openPdf := fun _ => .error ⟨false, []⟩
  tablesCount := okE 0
  firstTableHtml := .error ⟨false, []⟩
  readHtmlTables := fun _ => .error ⟨false, []⟩
  postReq := fun _ _ _ => okE ⟨200, none, chars "ok"⟩

def basePayload : Payload := ⟨chars "user@example.com", some (chars "s3cret"), chars "http://quiz.page/q1"⟩

/-- Scenario-B page: one anchor to `report.csv`, no payload, no digits. -/
def htmlScenB : List Char := chars "<p>Download the report.</p>"

def csvScenB : List Nat := asciiBytes "id,value\n1,10\n2,15"

def envScenB : Env :=
  { baseEnv with
    content1 := okE htmlScenB
    content2 := okE htmlScenB
    linksOf := fun _ => [chars "report.csv"]
    download := fun u =>
      if u = chars "report.csv" then okE ⟨chars "report.csv", csvScenB⟩
      else .error ⟨false, []⟩ }

/-- The same page but whose visible body text contains a digit. -/
def envC1cx : Env := { envScenB with innerText2 := okE (chars "Version 2 available") }

/-- C9 counterexample: the body-text capture times out; the broad inner
`except Exception` swallows the `PlaywrightTimeoutError` and the run goes on. -/
def envC9cx : Env :=
  { baseEnv with innerText1 := Except.error ⟨true, chars "Timeout 120000ms exceeded."⟩ }

/-- C6 counterexample document: one page whose single table column sums to 0
(filtered out by `if s != 0`) and whose text sums to -5. -/
def pdfC6cx : PdfDoc :=
  [⟨[[[some (chars "v")], [some (chars "3")], [some (chars "-3")]]], chars "-5"⟩]

/-- C5 counterexample CSV: the `value` column holds a non-numeric entry. -/
def csvC5cx : List Nat := asciiBytes "id,value\n1,10\n2,abc"

/-- C7 counterexample text: `\x7b"k": ",\x7d",\x7d` — valid JSON except for
one trailing comma, but the string literal also contains `,\x7d`. -/
def textC7cx : List Char := chars "\x7b\"k\": \",\x7d\",\x7d"

/-- C9/C2 witness environment: navigation times out. -/
def envC9gotoTimeout : Env :=
  { baseEnv with goto := Except.error ⟨true, chars "Timeout 120000ms exceeded."⟩ }

/-- C3/D witness environment: empty page whose visible text asks true/false. -/
def envScenD : Env := { baseEnv with innerText1 := okE (chars "Answer true or false?") }

/-- C2 witness environment: a submit URL is present but no heuristic yields an
answer. -/
def envC2w : Env :=
  { baseEnv with
    content1 := okE (chars "post to https://h.io/submit now")
    content2 := okE (chars "no digits here") }

/-- The debug dict produced by the C2 witness run. -/
def dC2w : Debug := ((runSolver envC2w basePayload).1.debug).getD initDebug

/-- The debug dict produced by the scenario-D witness run. -/
def dScenD : Debug := ((runSolver envScenD basePayload).1.debug).getD initDebug

/-- The parsed columns of the scenario-B CSV. -/
def csvScenBCols : List Column := (parseCsvBytesStrict csvScenB).getD []

/-- The debug dict produced by the scenario-B witness run. -/
def dScenB : Debug := ((runSolver envScenB basePayload).1.debug).getD initDebug

/-- C5 witness CSV: the `value` column has one missing entry and two numeric
ones. -/
def csvC5w : List Nat := asciiBytes "id,value\n1,10\n2,\n3,15"

def colC5wId : Column :=
  ⟨chars "id", [some (chars "1"), some (chars "2"), some (chars "3")]⟩

def colC5w : Column :=
  ⟨chars "value", [some (chars "10"), none, some (chars "15")]⟩

/-!
# Theorems
-/

/-- C8: `parse_submit_instruction` returns the first match in the strict
priority order (1) `/submit` URL pattern on the raw HTML, (2) top-level string
value containing `/submit` in the JSON object parsed from the first `<pre>`
block, (3) the URL pattern on the visible text; absent when none match.  The
`<pre>` text is the BeautifulSoup extraction, passed here as an input. -/
theorem c8_submit_locator_priority :
    ∀ html preText visible,
      parse_submit_instruction html preText visible =
        submitLocatorSpec html preText visible := by
  intro html preText visible
  simp only [parse_submit_instruction, submitLocatorSpec, preScanSpec]
  cases hf : findSubmitUrl html with
  | some u =>
    cases preText with
    | none => rfl
    | some p =>
      cases hj : jsonLoads p with
      | none => simp [hj]
      | some j => cases j <;> simp [hj]
  | none =>
    cases preText with
    | none => rfl
    | some p =>
      cases hj : jsonLoads p with
      | none => simp [hj]
      | some j => cases j <;> simp [hj]

/-- C5 counterexample: for the CSV `id,value` with rows `1,10` and `2,abc`,
the claim's value (sum of the numeric entries of the `value` column, ignoring
the non-numeric `abc`) is `10`, but the code returns `3`: `astype(float)`
raises on `abc`, the whole `value` path is abandoned, and the first numeric
column `id` is summed instead. -/
theorem c5_counterexample :
    sum_csv_value_column_from_bytes csvC5cx = some 3 ∧
    ((parseCsvBytesLenient csvC5cx).map fun cols =>
      cols.map fun c => (lowerStr (stripStr c.name), sumCoerce c)) =
      some [(chars "id", 3), (chars "value", 10)] ∧
    (3 : ℚ) ≠ 10 := by
  refine ⟨?_, ?_, ?_⟩ <;> with_unfolding_all decide

/-- C6 counterexample: a one-page PDF whose single table column sums to `0`
and whose text numbers sum to `-5`.  The claim's value (maximum over all
candidate sums, i.e. `max 0 (-5) = 0`, computed by `sumPdfSpec`) differs from
the code's result `-5`: the `if s != 0` filter drops the zero table sum. -/
theorem c6_counterexample :
    sum_pdf_value_like pdfC6cx = some (-5) ∧
    sumPdfSpec pdfC6cx = some 0 ∧
    ((-5 : ℚ) ≠ 0) := by
  refine ⟨?_, ?_, ?_⟩ <;> with_unfolding_all decide

/-- C7 counterexample: for the text `\x7b"k": ",\x7d",\x7d`, whose only
malformation relative to valid JSON is the single trailing comma before the
final brace, the parser succeeds but returns `\x7b"k": "\x7d"\x7d` — the
`re.sub` cleanup also rewrote the `,\x7d` inside the string literal — while
parsing the text with the defect manually removed gives `\x7b"k": ",\x7d"\x7d`. -/
theorem c7_counterexample :
    jsonLoads textC7cx = none ∧
    find_json_in_text textC7cx =
      some (Json.obj [(chars "k", Json.str (chars "\x7d"))]) ∧
    jsonLoads (chars "\x7b\"k\": \",\x7d\"\x7d") =
      some (Json.obj [(chars "k", Json.str (chars ",\x7d"))]) ∧
    Json.str (chars "\x7d") ≠ Json.str (chars ",\x7d") := by
  refine ⟨by with_unfolding_all rfl, by with_unfolding_all rfl,
    by with_unfolding_all rfl, fun h => ?_⟩
  injection h with h'
  exact absurd h' (by decide)

/-- C9 counterexample: a browser-automation timeout raised while capturing the
body text (solver.py line 300) is swallowed by the broad inner
`except Exception` handler; the run continues and terminates with
`no_submit_url`, not `playwright_timeout`. -/
theorem c9_counterexample :
    envC9cx.innerText1 = Except.error ⟨true, chars "Timeout 120000ms exceeded."⟩ ∧
    (runSolver envC9cx basePayload).1.status = chars "no_submit_url" ∧
    chars "no_submit_url" ≠ chars "playwright_timeout" := by
  refine ⟨rfl, by with_unfolding_all rfl, by decide⟩

/-- C1 counterexample: a page with no embedded payload and exactly one anchor
to `report.csv` (holding `id,value` rows `1,10`, `2,15`), but whose visible
body text is `Version 2 available`.  The body-text fallback inside
`compute_answer_from_page_content` fires first and the run's candidate is the
sum of the visible numbers, `2`, not `25`. -/
theorem c1_counterexample :
    extract_base64_from_page_html htmlScenB = none ∧
    envC1cx.linksOf htmlScenB = [chars "report.csv"] ∧
    envC1cx.download (chars "report.csv") = okE ⟨chars "report.csv", csvScenB⟩ ∧
    ((runSolver envC1cx basePayload).1.debug.map Debug.attemptedAnswer) =
      some (some (Json.num 2)) ∧
    ¬((2 : ℚ) = 25) := by
  refine ⟨by with_unfolding_all rfl, by with_unfolding_all rfl,
    by with_unfolding_all rfl, by with_unfolding_all rfl, by decide⟩

theorem submitStage_debug (env : Env) (p : Payload) (html : List Char)
    (cand : Option Json) (d : Debug) (evs : List Ev) :
    ∃ dd, (submitStage env p html cand d evs).1.debug = some dd ∧
      dd.attemptedAnswer = cand ∧ dd.steps = d.steps ∧
      dd.answerSource = d.answerSource := by
  simp only [submitStage]
  split
  · exact ⟨_, rfl, rfl, rfl, rfl⟩
  · split
    · exact ⟨_, rfl, rfl, rfl, rfl⟩
    · split
      · exact ⟨_, rfl, rfl, rfl, rfl⟩
      · exact ⟨_, rfl, rfl, rfl, rfl⟩

theorem submitStage_attempted (env : Env) (p : Payload) (html : List Char)
    (cand : Option Json) (d : Debug) (evs : List Ev) (dd : Debug)
    (h : (submitStage env p html cand d evs).1.debug = some dd) :
    dd.attemptedAnswer = cand ∧ dd.steps = d.steps ∧
      dd.answerSource = d.answerSource := by
  obtain ⟨dd', hdd', h1, h2, h3⟩ := submitStage_debug env p html cand d evs
  rw [h] at hdd'
  injection hdd' with h4
  rw [← h4] at h1 h2 h3
  exact ⟨h1, h2, h3⟩

theorem submitStage_none (env : Env) (p : Payload) (html : List Char)
    (d : Debug) (evs : List Ev) :
    (submitStage env p html none d evs).2 = evs ∧
      ∀ dd u, (submitStage env p html none d evs).1.debug = some dd →
        dd.submitUrl = some u →
        (submitStage env p html none d evs).1.status = chars "no_answer" := by
  simp only [submitStage]
  split
  · rename_i heq
    refine ⟨rfl, fun dd u hdd hu => ?_⟩
    simp only [Option.some.injEq] at hdd
    subst hdd
    simp only [] at hu
    rw [heq] at hu
    exact absurd hu (by simp)
  · exact ⟨rfl, fun _ _ _ _ => rfl⟩

theorem postComputeDebug_steps_some (env : Env) (html : List Char)
    (cinfo : CInfo) (a : Json) :
    (postComputeDebug env html cinfo (some a)).steps =
      [chars "page_loaded", chars "answer_computed"] := rfl

theorem postComputeDebug_steps_none (env : Env) (html : List Char)
    (cinfo : CInfo) :
    (postComputeDebug env html cinfo none).steps =
      [chars "page_loaded", chars "no_answer_computed"] := rfl

theorem postComputeDebug_answerSource (env : Env) (html : List Char)
    (cinfo : CInfo) (answer : Option Json) :
    (postComputeDebug env html cinfo answer).answerSource = none := by
  cases answer <;> rfl

theorem urlLoop_events (env : Env) (d : CDebug) (us : List (List Char)) :
    ∀ e ∈ (urlLoop env d us).2.2, ∃ u, e = Ev.fetchBytes u := by
  induction us generalizing d with
  | nil => simp [urlLoop]
  | cons u rest ih =>
    intro e he
    cases hf : env.fetch u with
    | error ex =>
      simp only [urlLoop, hf, List.mem_cons] at he
      rcases he with h | h
      · exact ⟨u, h⟩
      · exact ih _ _ h
    | ok bts =>
      simp only [urlLoop, hf] at he
      split at he
      · split at he <;>
          (simp only [List.mem_singleton] at he; exact ⟨u, he⟩)
      · split at he
        · split at he <;>
            (simp only [List.mem_singleton] at he; exact ⟨u, he⟩)
        · simp only [List.mem_cons] at he
          rcases he with h | h
          · exact ⟨u, h⟩
          · exact ih _ _ h

theorem decodedJsonStage_inl_events (env : Env) (d : CDebug)
    (parsed : Option Json) (res : Option Json × CInfo × List Ev)
    (h : decodedJsonStage env d parsed = Sum.inl res) :
    ∀ e ∈ res.2.2, ∃ u, e = Ev.fetchBytes u := by
  intro e he
  simp only [decodedJsonStage] at h
  repeat' split at h
  all_goals
    first
      | (subst h;
         first
           | (simp only [List.mem_singleton] at he; exact ⟨_, he⟩)
           | cases he)
      | (injection h with h'; subst h';
         first
           | (simp only [List.mem_singleton] at he; exact ⟨_, he⟩)
           | cases he)
      | simp at h

theorem decodedJsonStage_inr_events (env : Env) (d : CDebug)
    (parsed : Option Json) (r : CDebug × List Ev)
    (h : decodedJsonStage env d parsed = Sum.inr r) :
    ∀ e ∈ r.2, ∃ u, e = Ev.fetchBytes u := by
  intro e he
  simp only [decodedJsonStage] at h
  repeat' split at h
  all_goals
    first
      | (subst h;
         first
           | (simp only [List.mem_singleton] at he; exact ⟨_, he⟩)
           | cases he)
      | (injection h with h'; subst h';
         first
           | (simp only [List.mem_singleton] at he; exact ⟨_, he⟩)
           | cases he)
      | simp at h

theorem bodyStage_events (env : Env) (d : CDebug) (evs0 : List Ev) :
    (bodyStage env d evs0).2.2 = evs0 := by
  simp only [bodyStage]
  split
  · rfl
  · split <;> rfl

theorem computeUpToBody_inl_events (env : Env) (d1 : CDebug) (ph : List Char)
    (res : Option Json × CInfo × List Ev)
    (h : computeUpToBody env d1 ph = Sum.inl res) :
    ∀ e ∈ res.2.2, ∃ u, e = Ev.fetchBytes u := by
  intro e he
  simp only [computeUpToBody] at h
  split at h
  · rename_i c cs hx
    split at h
    · rename_i res' hds
      injection h with h'
      subst h'
      exact decodedJsonStage_inl_events env _ _ _ hds e he
    · rename_i r hds
      split at h
      · rename_i j u hr
        injection h with h'
        subst h'
        simp only [List.mem_append] at he
        rcases he with hh | hh
        · exact decodedJsonStage_inr_events env _ _ _ hds e hh
        · rcases urlLoop_events env r.1 (findUrls (c :: cs)) e hh with ⟨u', hu'⟩
          exact ⟨u', hu'⟩
      · simp at h
  · simp at h

theorem computeUpToBody_inr_events (env : Env) (d1 : CDebug) (ph : List Char)
    (r0 : CDebug × List Ev)
    (h : computeUpToBody env d1 ph = Sum.inr r0) :
    ∀ e ∈ r0.2, ∃ u, e = Ev.fetchBytes u := by
  intro e he
  simp only [computeUpToBody] at h
  split at h
  · rename_i c cs hx
    split at h
    · simp at h
    · rename_i r hds
      split at h
      · simp at h
      · injection h with h'
        subst h'
        simp only [List.mem_append] at he
        rcases he with hh | hh
        · exact decodedJsonStage_inr_events env _ _ _ hds e hh
        · exact urlLoop_events env r.1 (findUrls (c :: cs)) e hh
  · injection h with h'
    subst h'
    cases he

theorem computeAnswer_events (env : Env) (ph : Option (List Char)) :
    ∀ e ∈ (computeAnswer env ph).2.2, ∃ u, e = Ev.fetchBytes u := by
  intro e he
  simp only [computeAnswer] at he
  split at he
  · simp at he
  · rename_i ph' hok
    revert he
    cases hc : computeUpToBody env {initCDebug with gotPageHtml := true} ph' with
    | inl res =>
      intro he
      exact computeUpToBody_inl_events env _ _ _ hc e he
    | inr r =>
      intro he
      rw [bodyStage_events] at he
      exact computeUpToBody_inr_events env _ _ _ hc e he

theorem fallbackStages_error_events (env : Env) (html text : List Char)
    (d : Debug) (r : Exc × List Ev)
    (h : fallbackStages env html text d = Except.error r) :
    r.2 = [Ev.queryTables] := by
  simp only [fallbackStages] at h
  repeat' split at h
  all_goals first
    | (subst h; rfl)
    | (injection h with h'; subst h'; rfl)
    | simp at h

theorem fallbackStages_ok_events (env : Env) (html text : List Char)
    (d : Debug) (r : Option Json × Debug × List Ev)
    (h : fallbackStages env html text d = Except.ok r) :
    ∀ e ∈ r.2.2, (∃ u, e = Ev.downloadFile u) ∨ e = Ev.queryTables := by
  intro e he
  simp only [fallbackStages] at h
  repeat' split at h
  all_goals first
    | (subst h
       simp only [List.mem_singleton, List.mem_cons, List.not_mem_nil,
         or_false] at he
       first
         | (rcases he with rfl | rfl
            · exact Or.inr rfl
            · exact Or.inl ⟨_, rfl⟩)
         | (subst he; first | exact Or.inl ⟨_, rfl⟩ | exact Or.inr rfl))
    | (injection h with h'; subst h'
       simp only [List.mem_singleton, List.mem_cons, List.not_mem_nil,
         or_false] at he
       first
         | (rcases he with rfl | rfl
            · exact Or.inr rfl
            · exact Or.inl ⟨_, rfl⟩)
         | (subst he; first | exact Or.inl ⟨_, rfl⟩ | exact Or.inr rfl))
    | simp at h

theorem submitStage_status (env : Env) (p : Payload) (html : List Char)
    (cand : Option Json) (d : Debug) (evs : List Ev) :
    (submitStage env p html cand d evs).1.status = chars "no_submit_url" ∨
    (submitStage env p html cand d evs).1.status = chars "no_answer" ∨
    (submitStage env p html cand d evs).1.status = chars "submitted" ∨
    (submitStage env p html cand d evs).1.status = chars "submit_failed" := by
  simp only [submitStage]
  split
  · exact Or.inl rfl
  · split
    · exact Or.inr (Or.inl rfl)
    · split
      · exact Or.inr (Or.inr (Or.inl rfl))
      · exact Or.inr (Or.inr (Or.inr rfl))

/-- C2: whenever the run's computed answer candidate is absent, no POST call
appears in the run's effect trace, and when a submit URL was found the
terminal status is `no_answer`. -/
theorem c2_no_answer_no_post :
    ∀ (env : Env) (p : Payload) (d : Debug),
      (runSolver env p).1.debug = some d →
      d.attemptedAnswer = none →
      (∀ u, Ev.post u ∉ (runSolver env p).2) ∧
      (∀ u, d.submitUrl = some u →
        (runSolver env p).1.status = chars "no_answer") := by
  intro env p d hd hnone
  cases hl : env.launch with
  | error e => simp [runSolver, excResult, hl] at hd
  | ok _ =>
  cases hg : env.goto with
  | error e => simp [runSolver, excResult, hl, hg] at hd
  | ok _ =>
  cases hc : env.content1 with
  | error e => simp [runSolver, excResult, hl, hg, hc] at hd
  | ok html =>
  simp only [runSolver, hl, hg, hc] at hd ⊢
  rcases hcres : computeAnswer env (runPhGiven env) with ⟨ans, cinfo, evs1⟩
  rw [hcres] at hd
  have hevtyp := computeAnswer_events env (runPhGiven env)
  rw [hcres] at hevtyp
  dsimp only at hd hevtyp ⊢
  cases ans with
  | some a =>
    obtain ⟨hatt, _⟩ := submitStage_attempted env p html (some a) _ _ d hd
    rw [hnone] at hatt
    exact absurd hatt (by simp)
  | none =>
    split at hd
    · rename_i v heqc
      exact absurd heqc (by simp)
    · split at hd
      · simp [excResult] at hd
      · rename_i r heq
        obtain ⟨hatt, _⟩ := submitStage_attempted env p html r.1 r.2.1 _ d hd
        rw [hnone] at hatt
        have hr1 : r.1 = none := hatt.symm
        rw [hr1] at hd ⊢
        constructor
        · intro u hmem
          rw [(submitStage_none env p html _ _).1] at hmem
          rcases List.mem_append.mp hmem with hm | hm
          · rcases hevtyp _ hm with ⟨u', hu'⟩
            cases hu'
          · rcases fallbackStages_ok_events env html _ _ r heq _ hm with ⟨u', hu'⟩ | hq
            · cases hu'
            · cases hq
        · intro u hu
          exact (submitStage_none env p html _ _).2 d u hd hu

/-- C2 witness: a concrete run whose page advertises `https://h.io/submit` but
yields no candidate performs no POST and ends with `no_answer`. -/
theorem c2_no_answer_no_post_witness :
    (∀ u, Ev.post u ∉ (runSolver envC2w basePayload).2) ∧
    (runSolver envC2w basePayload).1.status = chars "no_answer" := by
  have h := c2_no_answer_no_post envC2w basePayload dC2w
    (by with_unfolding_all rfl) (by with_unfolding_all rfl)
  exact ⟨h.1, h.2 (chars "https://h.io/submit") (by with_unfolding_all rfl)⟩

/-- The `.ok` exits of the fallback stages: the debug gains exactly one stage
marker, identifying which stage ran; the true-or-false fallback's `bool true`
candidate can only arise in the text stage with no phrase match. -/
theorem fallbackStages_ok_steps (env : Env) (html text : List Char)
    (d : Debug) (r : Option Json × Debug × List Ev)
    (h : fallbackStages env html text d = Except.ok r) :
    r.2.1.steps = d.steps ++ [chars "found_assets"] ∨
    r.2.1.steps = d.steps ++ [chars "dom_table_detected"] ∨
    (r.2.1.steps = d.steps ++ [chars "text_inference"] ∧
      (r.1 = some (Json.bool true) → phraseMatch text = none)) := by
  simp only [fallbackStages] at h
  repeat' split at h
  all_goals
    first
      | ((injection h with h')
         subst h'
         first
           | exact Or.inl rfl
           | exact Or.inr (Or.inl rfl)
           | exact Or.inr (Or.inr ⟨rfl, fun hco => by simp_all⟩))
      | injection h

/-- C3: whenever the run's trace shows the free-text stage was entered
(`text_inference`), no earlier stage produced a candidate — compute yielded
nothing (`answer_computed` absent), no asset link was found, no DOM table was
detected — and a `bool true` candidate can only have come from the
true-or-false fallback after the phrase match failed.  Hence the fallback is
never evaluated once an earlier stage has produced a non-absent candidate. -/
theorem c3_fallback_short_circuit :
    ∀ (env : Env) (p : Payload) (d : Debug),
      (runSolver env p).1.debug = some d →
      chars "text_inference" ∈ d.steps →
      (chars "answer_computed" ∉ d.steps ∧
       chars "found_assets" ∉ d.steps ∧
       chars "dom_table_detected" ∉ d.steps) ∧
      (d.attemptedAnswer = some (Json.bool true) →
        phraseMatch (runText env) = none) := by
  intro env p d hd hti
  cases hl : env.launch with
  | error e => simp [runSolver, excResult, hl] at hd
  | ok _ =>
  cases hg : env.goto with
  | error e => simp [runSolver, excResult, hl, hg] at hd
  | ok _ =>
  cases hc : env.content1 with
  | error e => simp [runSolver, excResult, hl, hg, hc] at hd
  | ok html =>
  simp only [runSolver, hl, hg, hc] at hd
  rcases hcres : computeAnswer env (runPhGiven env) with ⟨ans, cinfo, evs1⟩
  rw [hcres] at hd
  cases ans with
  | some a =>
    obtain ⟨_, hsteps, _⟩ := submitStage_attempted env p html (some a) _ _ d hd
    rw [hsteps, postComputeDebug_steps_some] at hti
    exact absurd hti (by decide)
  | none =>
    split at hd
    · rename_i v heqc
      exact absurd heqc (by simp)
    · split at hd
      · simp [excResult] at hd
      · rename_i r heq
        obtain ⟨hatt, hsteps, _⟩ := submitStage_attempted env p html r.1 r.2.1 _ d hd
        rcases fallbackStages_ok_steps env html _ _ r heq with hs | hs | ⟨hs, hbool⟩
        · rw [hsteps, hs, postComputeDebug_steps_none] at hti
          exact absurd hti (by decide)
        · rw [hsteps, hs, postComputeDebug_steps_none] at hti
          exact absurd hti (by decide)
        · constructor
          · rw [hsteps, hs, postComputeDebug_steps_none]
            refine ⟨?_, ?_, ?_⟩ <;> decide
          · intro hba
            rw [hba] at hatt
            exact hbool hatt.symm

/-- C9 (amended): the top-level handlers map an exception that actually
reaches them to `excResult` — `playwright_timeout` when it is a timeout,
`error` otherwise, both carrying the description — and they do receive the
failures of the unguarded calls: browser launch, navigation, the first
`page.content()`, and (via propagation through the fallback stages) the DOM
table query.  The run, as modelled, is total: it always terminates in one of
six statuses and never raises to its caller.  Timeouts raised inside the
guarded inner calls, however, are swallowed and never reach the handlers
(see the counterexample). -/
theorem c9_exception_handling :
    ∀ (env : Env) (p : Payload),
      (∀ e : Exc, (excResult e).status =
          (if e.timeout then chars "playwright_timeout" else chars "error") ∧
          (excResult e).errMsg = some e.msg) ∧
      (∀ e, env.launch = Except.error e →
        runSolver env p = (excResult e, [])) ∧
      (∀ e, env.launch = Except.ok () → env.goto = Except.error e →
        runSolver env p = (excResult e, [])) ∧
      (∀ e, env.launch = Except.ok () → env.goto = Except.ok () →
        env.content1 = Except.error e →
        runSolver env p = (excResult e, [])) ∧
      (∀ html r, env.launch = Except.ok () → env.goto = Except.ok () →
        env.content1 = Except.ok html →
        (computeAnswer env (runPhGiven env)).1 = none →
        fallbackStages env html (runText env)
          (postComputeDebug env html
            (computeAnswer env (runPhGiven env)).2.1 none) = Except.error r →
        (runSolver env p).1 = excResult r.1) ∧
      ((runSolver env p).1.status = chars "playwright_timeout" ∨
       (runSolver env p).1.status = chars "error" ∨
       (runSolver env p).1.status = chars "no_submit_url" ∨
       (runSolver env p).1.status = chars "no_answer" ∨
       (runSolver env p).1.status = chars "submitted" ∨
       (runSolver env p).1.status = chars "submit_failed") := by
  intro env p
  have hexc : ∀ e : Exc, (excResult e).status = chars "playwright_timeout" ∨
      (excResult e).status = chars "error" := by
    intro e
    by_cases ht : e.timeout = true
    · exact Or.inl (by simp [excResult, ht])
    · exact Or.inr (by simp [excResult, ht])
  refine ⟨fun e => ⟨rfl, rfl⟩, ?_, ?_, ?_, ?_, ?_⟩
  · intro e h
    simp only [runSolver, h]
  · intro e h1 h2
    simp only [runSolver, h1, h2]
  · intro e h1 h2 h3
    simp only [runSolver, h1, h2, h3]
  · intro html r h1 h2 h3 hans hf
    simp only [runSolver, h1, h2, h3]
    rcases hcres : computeAnswer env (runPhGiven env) with ⟨ans, cinfo, evs1⟩
    rw [hcres] at hans hf
    dsimp only at hans hf ⊢
    subst hans
    rw [hf]
  · cases hl : env.launch with
    | error e =>
      simp only [runSolver, hl]
      rcases hexc e with h | h
      · exact Or.inl h
      · exact Or.inr (Or.inl h)
    | ok _ =>
    cases hg : env.goto with
    | error e =>
      simp only [runSolver, hl, hg]
      rcases hexc e with h | h
      · exact Or.inl h
      · exact Or.inr (Or.inl h)
    | ok _ =>
    cases hc : env.content1 with
    | error e =>
      simp only [runSolver, hl, hg, hc]
      rcases hexc e with h | h
      · exact Or.inl h
      · exact Or.inr (Or.inl h)
    | ok html =>
    simp only [runSolver, hl, hg, hc]
    rcases hcres : computeAnswer env (runPhGiven env) with ⟨ans, cinfo, evs1⟩
    dsimp only
    cases ans with
    | some a =>
      rcases submitStage_status env p html (some a)
          (postComputeDebug env html cinfo (some a)) evs1 with h | h | h | h <;>
        simp [h]
    | none =>
      cases hf : fallbackStages env html (runText env)
          (postComputeDebug env html cinfo none) with
      | error r =>
        dsimp only
        rcases hexc r.1 with h | h <;> simp [h]
      | ok r =>
        dsimp only
        rcases submitStage_status env p html r.1 r.2.1 (evs1 ++ r.2.2)
            with h | h | h | h <;>
          simp [h]

/-- C1 (amended): for a run on a page with no embedded payload and one anchor
to `report.csv` holding `id,value` rows `1,10` and `2,15`, the candidate is
`25` via the CSV value-column sum — provided `compute_answer_from_page_content`
produced nothing (in particular, the visible body text must show no
digit-like substring, or its sum preempts the CSV; see the counterexample). -/
theorem c1_csv_asset_sum :
    ∀ (env : Env) (p : Payload) (html : List Char) (d : Debug),
      env.launch = Except.ok () → env.goto = Except.ok () →
      env.content1 = Except.ok html →
      (computeAnswer env (runPhGiven env)).1 = none →
      env.linksOf html = [chars "report.csv"] →
      env.download (chars "report.csv") =
        Except.ok ⟨chars "report.csv", csvScenB⟩ →
      (runSolver env p).1.debug = some d →
      d.attemptedAnswer = some (Json.num 25) ∧
      d.answerSource = some (chars "csv_sum:value") := by
  intro env p html d hl hg hc hnone hlinks hdl hd
  simp only [runSolver, hl, hg, hc] at hd
  rcases hcres : computeAnswer env (runPhGiven env) with ⟨ans, cinfo, evs1⟩
  rw [hcres] at hd hnone
  dsimp only at hd hnone
  cases ans with
  | some a => simp at hnone
  | none =>
    have hpdfs : List.filter (lowerEndsWith · ".pdf") [chars "report.csv"]
        = [] := by decide
    have hcsvs : List.filter (lowerEndsWith · ".csv") [chars "report.csv"]
        = [chars "report.csv"] := by decide
    have hfp : lowerEndsWith (chars "report.csv") ".pdf" = false := by decide
    have hfc : lowerEndsWith (chars "report.csv") ".csv" = true := by decide
    have hparse : parseCsvBytesStrict csvScenB = some csvScenBCols := by
      with_unfolding_all rfl
    have hpick : runCsvPick csvScenBCols = some ((25 : ℚ), chars "value") := by
      with_unfolding_all rfl
    have happ : chars "csv_sum:" ++ chars "value" = chars "csv_sum:value" := by
      decide
    have hfb : fallbackStages env html (runText env)
        (postComputeDebug env html cinfo none) =
        Except.ok (some (Json.num 25),
          {postComputeDebug env html cinfo none with
            steps := (postComputeDebug env html cinfo none).steps ++
              [chars "found_assets"],
            downloaded := some (chars "report.csv"),
            answerSource := some (chars "csv_sum:value")},
          [Ev.downloadFile (chars "report.csv")]) := by
      simp [fallbackStages, hlinks, hpdfs, hcsvs, hdl, hfp, hfc, hparse,
        hpick, happ]
    rw [hfb] at hd
    obtain ⟨hatt, _, hsrc⟩ := submitStage_attempted env p html
      (some (Json.num 25))
      {postComputeDebug env html cinfo none with
        steps := (postComputeDebug env html cinfo none).steps ++
          [chars "found_assets"],
        downloaded := some (chars "report.csv"),
        answerSource := some (chars "csv_sum:value")}
      (evs1 ++ [Ev.downloadFile (chars "report.csv")]) d hd
    exact ⟨hatt, hsrc⟩

/-- C1 witness: the scenario-B run (blank body text, one `report.csv` anchor)
produces the candidate 25 from the CSV value column. -/
theorem c1_csv_asset_sum_witness :
    dScenB.attemptedAnswer = some (Json.num 25) ∧
    dScenB.answerSource = some (chars "csv_sum:value") := by
  exact c1_csv_asset_sum envScenB basePayload htmlScenB dScenB rfl rfl rfl
    (by with_unfolding_all rfl) rfl (by with_unfolding_all rfl)
    (by with_unfolding_all rfl)

/-- When every element maps to `some`, `mapM` collects exactly the
`filterMap` image. -/
theorem mapM_loop_pyFloat_eq (l : List (List Char)) :
    ∀ acc : List ℚ, (∀ x ∈ l, (pyFloat x).isSome) →
      List.mapM.loop pyFloat l acc =
        some (acc.reverse ++ l.filterMap pyFloat) := by
  induction l with
  | nil =>
    intro acc _
    simp [List.mapM.loop]
  | cons x xs ih =>
    intro acc h
    rcases hx : pyFloat x with _ | y
    · have hs := h x (List.mem_cons_self x xs)
      rw [hx] at hs
      exact absurd hs (by decide)
    · have ih' := ih (y :: acc) fun z hz => h z (List.mem_cons_of_mem x hz)
      simp [List.mapM.loop, hx, ih', List.filterMap_cons]

theorem mapM_pyFloat_eq (l : List (List Char))
    (h : ∀ x ∈ l, (pyFloat x).isSome) :
    l.mapM pyFloat = some (l.filterMap pyFloat) := by
  have hl := mapM_loop_pyFloat_eq l [] h
  simpa [List.mapM] using hl

theorem drop_takeWhile_isSpace (l : List Char) :
    l.drop (l.takeWhile isSpace).length = l.dropWhile isSpace := by
  have h := List.drop_left (l.takeWhile isSpace) (l.dropWhile isSpace)
  rw [List.takeWhile_append_dropWhile] at h
  exact h

/-- The sub scan is fuel-insensitive once the fuel covers the input. -/
theorem subCommaCloseAux_fuel (close : Char) :
    ∀ (fuel : Nat) (l : List Char) (fuel' : Nat),
      l.length ≤ fuel → l.length ≤ fuel' →
      subCommaCloseAux close fuel l = subCommaCloseAux close fuel' l := by
  intro fuel
  induction fuel with
  | zero =>
    intro l fuel' h1 _
    have hl : l = [] := List.eq_nil_of_length_eq_zero (Nat.le_zero.mp h1)
    subst hl
    cases fuel' <;> rfl
  | succ fuel ih =>
    intro l fuel' h1 h2
    cases l with
    | nil => cases fuel' <;> rfl
    | cons c cs =>
      cases fuel' with
      | zero => simp at h2
      | succ fuel' =>
        have hcs1 : cs.length ≤ fuel := by
          simp only [List.length_cons] at h1
          omega
        have hcs2 : cs.length ≤ fuel' := by
          simp only [List.length_cons] at h2
          omega
        simp only [subCommaCloseAux]
        by_cases hc : c = ','
        · rw [if_pos hc, if_pos hc]
          cases hdrop : cs.drop (cs.takeWhile isSpace).length with
          | nil => rw [ih cs fuel' hcs1 hcs2]
          | cons d rest =>
            dsimp only
            have hrest : rest.length ≤ cs.length := by
              have hlen := List.length_drop (cs.takeWhile isSpace).length cs
              rw [hdrop] at hlen
              simp only [List.length_cons] at hlen
              omega
            by_cases hd : d = close
            · rw [if_pos hd, if_pos hd,
                ih rest fuel' (le_trans hrest hcs1) (le_trans hrest hcs2)]
            · rw [if_neg hd, if_neg hd, ih cs fuel' hcs1 hcs2]
        · rw [if_neg hc, if_neg hc, ih cs fuel' hcs1 hcs2]

/-- A string without any `,\s*C` occurrence passes through the sub
unchanged. -/
theorem subCommaCloseAux_no_match (close : Char) :
    ∀ (fuel : Nat) (l : List Char),
      l.length ≤ fuel →
      hasCommaCloseMatch close l = false →
      subCommaCloseAux close fuel l = l := by
  intro fuel
  induction fuel with
  | zero =>
    intro l h1 _
    have hl : l = [] := List.eq_nil_of_length_eq_zero (Nat.le_zero.mp h1)
    subst hl
    rfl
  | succ fuel ih =>
    intro l h1 hnm
    cases l with
    | nil => rfl
    | cons c cs =>
      have hcs1 : cs.length ≤ fuel := by
        simp only [List.length_cons] at h1
        omega
      simp only [hasCommaCloseMatch, Bool.or_eq_false_iff] at hnm
      simp only [subCommaCloseAux]
      by_cases hc : c = ','
      · rw [if_pos hc]
        cases hdrop : cs.drop (cs.takeWhile isSpace).length with
        | nil => rw [ih cs hcs1 hnm.2]
        | cons d rest =>
          dsimp only
          have hd : d ≠ close := by
            intro hdc
            subst hdc
            have hh := hnm.1
            simp [commaCloseAtHead, hc, hdrop] at hh
          rw [if_neg hd, ih cs hcs1 hnm.2]
      · rw [if_neg hc, ih cs hcs1 hnm.2]

/-- No `,\s*C` occurrence arises in a concatenation when neither part has one
and the right part does not open with spaces followed by `C`. -/
theorem hasCommaCloseMatch_append (close : Char) :
    ∀ (a s : List Char),
      hasCommaCloseMatch close a = false →
      hasCommaCloseMatch close s = false →
      (∀ d rest, s.dropWhile isSpace = d :: rest → d ≠ close) →
      hasCommaCloseMatch close (a ++ s) = false := by
  intro a
  induction a with
  | nil =>
    intro s _ hs _
    simpa using hs
  | cons c a' ih =>
    intro s ha hs hfirst
    simp only [hasCommaCloseMatch, Bool.or_eq_false_iff] at ha
    simp only [List.cons_append, hasCommaCloseMatch, Bool.or_eq_false_iff]
    refine ⟨?_, ih s ha.2 hs hfirst⟩
    by_cases hc : c = ','
    · cases hsplit : a'.dropWhile isSpace with
      | nil =>
        cases hs2 : s.dropWhile isSpace with
        | nil =>
          simp [commaCloseAtHead, hc, drop_takeWhile_isSpace,
            List.dropWhile_append, hsplit, hs2]
        | cons d rest =>
          have hd := hfirst d rest hs2
          simp [commaCloseAtHead, hc, drop_takeWhile_isSpace,
            List.dropWhile_append, hsplit, hs2, hd]
      | cons d0 r0 =>
        have hd0 : d0 ≠ close := by
          intro hdc
          subst hdc
          have hh := ha.1
          simp [commaCloseAtHead, hc, drop_takeWhile_isSpace, hsplit] at hh
        simp [commaCloseAtHead, hc, drop_takeWhile_isSpace,
          List.dropWhile_append, hsplit, hd0]
    · simp [commaCloseAtHead, hc]

/-- Removing the single `,C` defect: the sub deletes exactly the comma. -/
theorem subCommaCloseAux_defect (close : Char)
    (hcc : close ≠ ',') (hcsp : isSpace close = false) :
    ∀ (fuel : Nat) (a b : List Char),
      (a ++ ',' :: close :: b).length ≤ fuel →
      hasCommaCloseMatch close a = false →
      hasCommaCloseMatch close b = false →
      subCommaCloseAux close fuel (a ++ ',' :: close :: b) =
        a ++ close :: b := by
  intro fuel
  induction fuel with
  | zero =>
    intro a b h1 _ _
    exfalso
    simp [List.length_append] at h1
  | succ fuel ih =>
    intro a b h1 ha hb
    cases a with
    | nil =>
      have hblen : b.length ≤ fuel := by
        simp only [List.nil_append, List.length_cons] at h1
        omega
      simp only [List.nil_append, subCommaCloseAux]
      simp only [if_true]
      have hdwb : (close :: b).drop ((close :: b).takeWhile isSpace).length =
          close :: b := by
        rw [drop_takeWhile_isSpace]
        simp [List.dropWhile_cons, hcsp]
      rw [hdwb]
      dsimp only
      rw [if_pos rfl, subCommaCloseAux_no_match close fuel b hblen hb]
    | cons c a' =>
      simp only [hasCommaCloseMatch, Bool.or_eq_false_iff] at ha
      have hl1 : (a' ++ ',' :: close :: b).length ≤ fuel := by
        simp only [List.cons_append, List.length_cons, List.length_append] at h1 ⊢
        omega
      simp only [List.cons_append, subCommaCloseAux, List.append_eq]
      by_cases hc : c = ','
      · rw [if_pos hc, drop_takeWhile_isSpace, List.dropWhile_append]
        cases hsplit : a'.dropWhile isSpace with
        | nil =>
          have hcomma : isSpace ',' = false := by decide
          have hdw2 : (',' :: close :: b).dropWhile isSpace =
              ',' :: close :: b := by
            simp [List.dropWhile_cons, hcomma]
          simp only [List.isEmpty_nil, if_true, hdw2]
          rw [if_neg (fun h => hcc h.symm), ih a' b hl1 ha.2 hb]
        | cons d0 r0 =>
          have hd0 : d0 ≠ close := by
            intro hdc
            subst hdc
            have hh := ha.1
            simp [commaCloseAtHead, hc, drop_takeWhile_isSpace, hsplit] at hh
          simp only [List.isEmpty_cons, Bool.false_eq_true, if_false,
            List.cons_append]
          rw [if_neg hd0, ih a' b hl1 ha.2 hb]
      · rw [if_neg hc, ih a' b hl1 ha.2 hb]

theorem subCommaClose_no_match (close : Char) (l : List Char)
    (h : hasCommaCloseMatch close l = false) : subCommaClose close l = l :=
  subCommaCloseAux_no_match close l.length l le_rfl h

theorem subCommaClose_defect (close : Char)
    (hcc : close ≠ ',') (hcsp : isSpace close = false) (a b : List Char)
    (ha : hasCommaCloseMatch close a = false)
    (hb : hasCommaCloseMatch close b = false) :
    subCommaClose close (a ++ ',' :: close :: b) = a ++ close :: b :=
  subCommaCloseAux_defect close hcc hcsp (a ++ ',' :: close :: b).length
    a b le_rfl ha hb

theorem foldl_max_mem (l : List ℚ) : ∀ s : ℚ, l.foldl max s ∈ s :: l := by
  induction l with
  | nil =>
    intro s
    simp
  | cons a l ih =>
    intro s
    rcases List.mem_cons.mp (ih (max s a)) with heq | hmem
    · rcases max_choice s a with hm | hm
      · rw [List.foldl_cons, heq, hm]
        exact List.mem_cons_self _ _
      · rw [List.foldl_cons, heq, hm]
        exact List.mem_cons_of_mem _ (List.mem_cons_self _ _)
    · rw [List.foldl_cons]
      exact List.mem_cons_of_mem _ (List.mem_cons_of_mem _ hmem)

theorem foldl_max_le (l : List ℚ) :
    ∀ s x : ℚ, x ∈ s :: l → x ≤ l.foldl max s := by
  induction l with
  | nil =>
    intro s x hx
    simp at hx
    simp [hx]
  | cons a l ih =>
    intro s x hx
    rw [List.foldl_cons]
    have hhead := ih (max s a) (max s a) (List.mem_cons_self _ _)
    rcases List.mem_cons.mp hx with rfl | hx'
    · exact le_trans (le_max_left x a) hhead
    · rcases List.mem_cons.mp hx' with rfl | hx''
      · exact le_trans (le_max_right s x) hhead
      · exact ih (max s a) x (List.mem_cons_of_mem _ hx'')

/-- C7 (amended): for a candidate whose only `,\s*\x7d` / `,\s*]`-shaped
occurrence is the single trailing-comma defect itself, the parser succeeds
and equals parsing the candidate with the comma manually removed.  (When the
pattern also occurs inside a string literal the cleanup rewrites it there
too, so the general claim fails; see the counterexample.) -/
theorem c7_trailing_comma_tolerance :
    ∀ (t a b : List Char) (close : Char),
      close = '}' ∨ close = ']' →
      t ≠ [] →
      firstJsonCandidate t = some (a ++ ',' :: close :: b) →
      hasCommaCloseMatch '}' a = false →
      hasCommaCloseMatch '}' b = false →
      hasCommaCloseMatch ']' a = false →
      hasCommaCloseMatch ']' b = false →
      jsonLoads (a ++ ',' :: close :: b) = none →
      find_json_in_text t = jsonLoads (a ++ close :: b) := by
  intro t a b close hclose ht hcand hbra hbrb hska hskb hfail
  have htne : t.isEmpty = false := by
    cases t
    · exact absurd rfl ht
    · rfl
  simp only [find_json_in_text, htne, Bool.false_eq_true, if_false, hcand,
    hfail]
  rcases hclose with rfl | rfl
  · have h1 : subCommaClose '}' (a ++ ',' :: '}' :: b) = a ++ '}' :: b :=
      subCommaClose_defect '}' (by decide) (by decide) a b hbra hbrb
    have h2 : subCommaClose ']' (a ++ '}' :: b) = a ++ '}' :: b := by
      apply subCommaClose_no_match
      apply hasCommaCloseMatch_append ']' a ('}' :: b) hska
      · simp only [hasCommaCloseMatch, Bool.or_eq_false_iff]
        refine ⟨by simp [commaCloseAtHead], hskb⟩
      · intro d rest hdw
        have hstop : ('}' :: b).dropWhile isSpace = '}' :: b := by
          have hbr : isSpace '}' = false := by decide
          simp [List.dropWhile_cons, hbr]
        rw [hstop] at hdw
        injection hdw with hd _
        subst hd
        decide
    rw [h1, h2]
  · have hsp1 : isSpace ',' = false := by decide
    have hsp2 : isSpace ']' = false := by decide
    have hstop2 : (',' :: ']' :: b).dropWhile isSpace = ',' :: ']' :: b := by
      simp [List.dropWhile_cons, hsp1]
    have hstop3 : (']' :: b).drop ((']' :: b).takeWhile isSpace).length =
        ']' :: b := by
      rw [drop_takeWhile_isSpace]
      simp [List.dropWhile_cons, hsp2]
    have h0 : subCommaClose '}' (a ++ ',' :: ']' :: b) =
        a ++ ',' :: ']' :: b := by
      apply subCommaClose_no_match
      apply hasCommaCloseMatch_append '}' a (',' :: ']' :: b) hbra
      · simp only [hasCommaCloseMatch, Bool.or_eq_false_iff]
        refine ⟨by simp [commaCloseAtHead, hstop3], ?_, hbrb⟩
        simp [commaCloseAtHead]
      · intro d rest hdw
        rw [hstop2] at hdw
        injection hdw with hd _
        subst hd
        decide
    have h1 : subCommaClose ']' (a ++ ',' :: ']' :: b) = a ++ ']' :: b :=
      subCommaClose_defect ']' (by decide) (by decide) a b hska hskb
    rw [h0, h1]

/-- C7 witness: the text `\x7b"a": 1,\x7d` has exactly the one defect; the
parser returns the object parsed from `\x7b"a": 1\x7d`. -/
theorem c7_trailing_comma_tolerance_witness :
    find_json_in_text (chars "\x7b\"a\": 1,\x7d") =
      some (Json.obj [(chars "a", Json.num 1)]) := by
  have h := c7_trailing_comma_tolerance (chars "\x7b\"a\": 1,\x7d")
    (chars "\x7b\"a\": 1") [] '}' (Or.inl rfl)
    (by decide) (by with_unfolding_all rfl) (by decide) (by decide)
    (by decide) (by decide) (by with_unfolding_all rfl)
  rw [h]
  with_unfolding_all rfl

/-- C6 (amended): the PDF extraction returns the maximum of the candidate
sums it actually collects — absent exactly when that collection is empty.
The collection, however, is not the spec's: a table column summing to zero is
filtered out by `if s != 0` (see the counterexample). -/
theorem c6_pdf_max_of_candidates :
    ∀ doc : PdfDoc,
      (sum_pdf_value_like doc = none ↔ (doc.map pageSums).flatten = []) ∧
      ∀ m, sum_pdf_value_like doc = some m →
        m ∈ (doc.map pageSums).flatten ∧
        ∀ x ∈ (doc.map pageSums).flatten, x ≤ m := by
  intro doc
  unfold sum_pdf_value_like
  cases hf : (doc.map pageSums).flatten with
  | nil =>
    refine ⟨by simp, ?_⟩
    intro m hm
    cases hm
  | cons s rest =>
    refine ⟨⟨fun h => by simp at h, fun h => by simp at h⟩, ?_⟩
    intro m hm
    have hm' : some (rest.foldl max s) = some m := hm
    injection hm' with hm''
    subst hm''
    exact ⟨foldl_max_mem rest s, fun x hx => foldl_max_le rest s x hx⟩

/-- C6 witness: on the one-page document whose table column sums to 0 and
whose text sums to -5, the returned maximum -5 is a member of the collected
candidates. -/
theorem c6_pdf_max_of_candidates_witness :
    sum_pdf_value_like pdfC6cx = some (-5) ∧
    (-5 : ℚ) ∈ (pdfC6cx.map pageSums).flatten := by
  have hs : sum_pdf_value_like pdfC6cx = some (-5) := by
    with_unfolding_all rfl
  exact ⟨hs, ((c6_pdf_max_of_candidates pdfC6cx).2 (-5) hs).1⟩

/-- C5 (amended): for a CSV whose (unique) trimmed/lower-cased `value` column
has every non-missing entry numeric, the extraction returns the sum of those
entries, ignoring the missing ones.  (A non-numeric entry, by contrast, makes
`astype(float)` raise and the whole column is skipped — the spec's "ignoring
non-numeric entries" fails there; see the counterexample.) -/
theorem c5_value_column_sum :
    ∀ (b : List Nat) (cols : List Column) (c : Column),
      parseCsvBytesLenient b = some cols →
      c ∈ cols →
      lowerStr (stripStr c.name) = chars "value" →
      (∀ c' ∈ cols, lowerStr (stripStr c'.name) = chars "value" → c' = c) →
      (∀ x ∈ nonMissing c, (pyFloat x).isSome) →
      sum_csv_value_column_from_bytes b =
        some ((nonMissing c).filterMap pyFloat).sum := by
  intro b cols c hparse hmem hname huniq hall
  have hast : colAstype c = some ((nonMissing c).filterMap pyFloat).sum := by
    unfold colAstype
    rw [mapM_pyFloat_eq (nonMissing c) hall]
    rfl
  have hfv : firstValueColSum cols =
      some ((nonMissing c).filterMap pyFloat).sum := by
    clear hparse hall
    revert hmem huniq
    induction cols with
    | nil =>
      intro hmem _
      cases hmem
    | cons c0 rest ih =>
      intro hmem huniq
      by_cases h0 : lowerStr (stripStr c0.name) = chars "value"
      · have hc0 : c0 = c := huniq c0 (List.mem_cons_self c0 rest) h0
        subst hc0
        simp [firstValueColSum, h0, hast]
      · have hmem' : c ∈ rest := by
          rcases List.mem_cons.mp hmem with heq | h
          · exact absurd (heq ▸ hname) h0
          · exact h
        have huniq' : ∀ c' ∈ rest,
            lowerStr (stripStr c'.name) = chars "value" → c' = c :=
          fun c' hc' => huniq c' (List.mem_cons_of_mem c0 hc')
        rw [firstValueColSum, if_neg h0]
        exact ih hmem' huniq'
  simp only [sum_csv_value_column_from_bytes, hparse, hfv]

/-- C5 witness: the CSV `id,value` with rows `1,10`, `2,` and `3,15` sums its
value column to 25, skipping the missing cell. -/
theorem c5_value_column_sum_witness :
    sum_csv_value_column_from_bytes csvC5w = some 25 := by
  have h := c5_value_column_sum csvC5w [colC5wId, colC5w] colC5w
    (by with_unfolding_all rfl)
    (List.mem_cons_of_mem _ (List.mem_cons_self _ _))
    (by decide)
    (by intro c' hc' hn
        rcases List.mem_cons.mp hc' with rfl | h
        · exact absurd hn (by decide)
        · rcases List.mem_cons.mp h with rfl | h
          · rfl
          · cases h)
    (by with_unfolding_all decide)
  rw [h]
  with_unfolding_all rfl

/-- C9 witness: a run whose navigation times out terminates with
`playwright_timeout` and carries the exception description. -/
theorem c9_exception_handling_witness :
    runSolver envC9gotoTimeout basePayload =
      (excResult ⟨true, chars "Timeout 120000ms exceeded."⟩, []) ∧
    (excResult (⟨true, chars "Timeout 120000ms exceeded."⟩ : Exc)).status =
      chars "playwright_timeout" ∧
    (excResult (⟨true, chars "Timeout 120000ms exceeded."⟩ : Exc)).errMsg =
      some (chars "Timeout 120000ms exceeded.") := by
  have h := c9_exception_handling envC9gotoTimeout basePayload
  exact ⟨h.2.2.1 ⟨true, chars "Timeout 120000ms exceeded."⟩ rfl rfl,
    (h.1 ⟨true, chars "Timeout 120000ms exceeded."⟩).1,
    (h.1 ⟨true, chars "Timeout 120000ms exceeded."⟩).2⟩

/-- C3 witness: the scenario-D run (a bare page asking "true or false") enters
the text stage with no earlier stage having produced anything. -/
theorem c3_fallback_short_circuit_witness :
    chars "text_inference" ∈ dScenD.steps ∧
    chars "answer_computed" ∉ dScenD.steps ∧
    chars "found_assets" ∉ dScenD.steps ∧
    phraseMatch (runText envScenD) = none := by
  have h := c3_fallback_short_circuit envScenD basePayload dScenD
    (by with_unfolding_all rfl) (by with_unfolding_all decide)
  exact ⟨by with_unfolding_all decide, h.1.1, h.1.2.1,
    h.2 (by with_unfolding_all rfl)⟩

end Quiz
